import Mathlib

/-!
Shallow embedding of the ISDuBA source-manager (`pkg/sources`) and the
sources web controller, restricted to the parts the verified claims are
about: the generic staged updater (`updater[T]`, `SourceUpdater`,
`FeedUpdater`, `Manager.UpdateSource`, `Manager.UpdateFeed`), source and
feed removal, feed refresh, the download-slot accounting and the
`createSource` slot validation.

Go pointers to catalogue entities are replaced by the entity values and
id-keyed lookups (DB ids are unique identities).  Byte slices are
`Option (List Nat)` (`none` models a nil slice), `float64` rates are `ℚ`,
durations and times are integers/naturals.  The crypto box
(`Manager.encrypt`) is not under `src/`; following the spec (§4.8
"provides encrypt(bytes) → bytes", plaintext never reaches the DB) its
output is modelled by the abstract constructor `Cipher.enc` which tags
the plaintext it encrypts.
-/

namespace ISDuBA

/-- Byte slices; `none` at use sites models a nil Go slice. -/
abbrev Bytes := List Nat

/-- Modelled from the spec: the crypto box's `encrypt(bytes) → bytes`
(§4.8); the implementation is not under `src/`.  `Cipher.enc p` is the
ciphertext obtained from plaintext `p` (`p = none` models `encrypt(nil)`). -/
inductive Cipher where
  | enc (plain : Option Bytes)
deriving DecidableEq, Repr

/-- A value bound to an SQL parameter by the manager. -/
inductive DBValue where
  | str (s : String)
  | int (n : Int)
  | optRat (r : Option ℚ)
  | optInt (n : Option Int)
  | bool (b : Bool)
  | optBool (b : Option Bool)
  | strList (l : List String)
  | optBytes (b : Option Bytes)
  | cipher (c : Cipher)
  | optCipher (c : Option Cipher)
deriving DecidableEq, Repr

/-- In-memory `source` entity (package `sources`): the fields the updater
and `AddSource` touch.  Ignore patterns are kept as their pattern
strings (`regexp.Regexp.String`). -/
structure Source where
  id : Int := 0
  name : String := ""
  url : String := ""
  active : Bool := false
  status : List String := []
  rate : Option ℚ := none
  slots : Option Int := none
  headers : List String := []
  strictMode : Option Bool := none
  insecure : Option Bool := none
  signatureCheck : Option Bool := none
  age : Option Int := none
  ignorePatterns : List String := []
  clientCertPublic : Option Bytes := none
  clientCertPrivate : Option Bytes := none
  clientCertPassphrase : Option Bytes := none
deriving DecidableEq, Repr

/-- Modelled from the spec: the status string used when a source is
deactivated because its client certificate could not be re-derived
(the constant lives in a file not under `src/`; the spec names it). -/
def deactivatedDueToClientCertIssue : String :=
  "deactivated_due_to_client_cert_issue"

/-- The apply-closures a `SourceUpdater` records (first components of
`addChange` calls in `UpdateName`, `UpdateRate`, ...). -/
inductive Change where
  | setName (name : String)
  | setRate (rate : Option ℚ)
  | setSlots (slots : Option Int)
  | setActive (active : Bool)
  | setHeaders (headers : List String)
  | setStrictMode (b : Option Bool)
  | setInsecure (b : Option Bool)
  | setSignatureCheck (b : Option Bool)
  | setAge (age : Option Int)
  | setIgnorePatterns (ps : List String)
  | setClientCertPublic (data : Option Bytes)
  | setClientCertPrivate (data : Option Bytes)
  | setClientCertPassphrase (data : Option Bytes)
deriving DecidableEq, Repr

/-- Effect of a recorded apply-closure on the in-memory source.
`setActive` also resets `status` (closure in `UpdateActive`); the cert
closures store the plaintext bytes. -/
def Change.apply : Change → Source → Source
  | .setName n, s => { s with name := n }
  | .setRate r, s => { s with rate := r }
  | .setSlots sl, s => { s with slots := sl }
  | .setActive a, s => { s with active := a, status := [] }
  | .setHeaders hs, s => { s with headers := hs }
  | .setStrictMode b, s => { s with strictMode := b }
  | .setInsecure b, s => { s with insecure := b }
  | .setSignatureCheck b, s => { s with signatureCheck := b }
  | .setAge a, s => { s with age := a }
  | .setIgnorePatterns ps, s => { s with ignorePatterns := ps }
  | .setClientCertPublic d, s => { s with clientCertPublic := d }
  | .setClientCertPrivate d, s => { s with clientCertPrivate := d }
  | .setClientCertPassphrase d, s => { s with clientCertPassphrase := d }

/-- Does the closure mark `clientCertUpdated` (the three cert closures
set `su.clientCertUpdated = true` when applied)? -/
def Change.certUpdated : Change → Bool
  | .setClientCertPublic _ => true
  | .setClientCertPrivate _ => true
  | .setClientCertPassphrase _ => true
  | _ => false

/-- One recorded update of `updater[T]`: parallel entries of the Go
`changes`/`fields`/`values` slices (`change = none` models a nil
closure, as used by the internal deactivation updater). -/
structure Rec (C : Type) where
  field : String
  value : DBValue
  change : Option C
deriving DecidableEq, Repr

/-- State of the generic `updater[T]` (package `sources`). -/
structure Upd (C : Type) where
  recorded : List (Rec C) := []
deriving DecidableEq, Repr

/-- The `fields` slice of the updater. -/
def Upd.fields {C : Type} (u : Upd C) : List String :=
  u.recorded.map (·.field)

/-- `updater.addChange`: records only the first update of a field. -/
def Upd.addChange {C : Type} (u : Upd C) (ch : Option C) (field : String)
    (value : DBValue) : Upd C :=
  if u.fields.contains field then u
  else { recorded := u.recorded ++ [⟨field, value, ch⟩] }

/-- Invocation of one recorded closure (nil closures are skipped). -/
def applyOne {C E : Type} (ap : C → E → E) (e : E) (r : Rec C) : E :=
  match r.change with
  | some c => ap c e
  | none => e

/-- `updater.applyChanges` on the entity: invoke each recorded closure in
the order of first recording (nil closures are skipped). -/
def applyRec {C E : Type} (ap : C → E → E) (u : Upd C) (e : E) : E :=
  u.recorded.foldl (applyOne ap) e

/-- `updater.updateDB`: the single UPDATE statement, as its list of
`(field, value)` bindings; `none` when no field was recorded (Go returns
without touching the DB). -/
def Upd.statement {C : Type} (u : Upd C) : Option (List (String × DBValue)) :=
  if u.recorded.isEmpty then none
  else some (u.recorded.map fun r => (r.field, r.value))

/-- Did any applied closure set `clientCertUpdated`? -/
def Upd.certUpdated (u : Upd Change) : Bool :=
  u.recorded.any fun r =>
    match r.change with
    | some c => c.certUpdated
    | none => false

/-- The `Sources` configuration section fields the embedded code reads. -/
structure SourcesConfig where
  downloadSlots : Int := 1
  maxSlotsPerSource : Int := 0
  maxRatePerSource : ℚ := 0
  maxAge : Int := 0
  feedRefresh : Nat := 0
deriving DecidableEq, Repr

/-- The argument of one `SourceUpdater.UpdateX` call. -/
inductive SourceUpdate where
  | name (n : String)
  | rate (r : Option ℚ)
  | slots (sl : Option Int)
  | active (a : Bool)
  | headers (hs : List String)
  | strictMode (b : Option Bool)
  | insecure (b : Option Bool)
  | signatureCheck (b : Option Bool)
  | age (a : Option Int)
  | ignorePatterns (ps : List String)
  | clientCertPublic (d : Option Bytes)
  | clientCertPrivate (d : Option Bytes)
  | clientCertPassphrase (d : Option Bytes)
deriving DecidableEq, Repr

/-- One `SourceUpdater.UpdateX` call.  `names` are the names of all
catalogued sources (`findSourceByName`); `s` is the bound entity, which
is unmutated during the callback since closures apply later. -/
def applyUpdate (cfg : SourcesConfig) (names : List String) (s : Source)
    (u : Upd Change) : SourceUpdate → Except String (Upd Change)
  | .name n =>
    if n = s.name then .ok u
    else if n = "" || names.contains n then .error "invalid name"
    else .ok (u.addChange (some (.setName n)) "name" (.str n))
  | .rate r =>
    match r, s.rate with
    | none, none => .ok u
    | _, _ =>
      if r ≠ none ∧ s.rate ≠ none ∧ r = s.rate then .ok u
      else
        match r with
        | some x =>
          if x ≤ 0 ∨ (x > cfg.maxRatePerSource ∧ cfg.maxRatePerSource ≠ 0) then
            .error "rate value out of range"
          else .ok (u.addChange (some (.setRate r)) "rate" (.optRat r))
        | none => .ok (u.addChange (some (.setRate r)) "rate" (.optRat r))
  | .slots sl =>
    match sl, s.slots with
    | none, none => .ok u
    | _, _ =>
      if sl ≠ none ∧ s.slots ≠ none ∧ sl = s.slots then .ok u
      else
        match sl with
        | some k =>
          if k < 1 ∨ (k > cfg.maxSlotsPerSource ∧ cfg.maxSlotsPerSource ≠ 0) then
            .error "slot value ot ouf range"
          else .ok (u.addChange (some (.setSlots sl)) "slots" (.optInt sl))
        | none => .ok (u.addChange (some (.setSlots sl)) "slots" (.optInt sl))
  | .active a =>
    if a = s.active then .ok u
    else .ok (u.addChange (some (.setActive a)) "active" (.bool a))
  | .headers hs =>
    if hs = s.headers then .ok u
    else .ok (u.addChange (some (.setHeaders hs)) "headers" (.strList hs))
  | .strictMode b =>
    if b = none ∧ s.strictMode = none then .ok u
    else if b ≠ none ∧ s.strictMode ≠ none ∧ b = s.strictMode then .ok u
    else .ok (u.addChange (some (.setStrictMode b)) "strict_mode" (.optBool b))
  | .insecure b =>
    if b = none ∧ s.insecure = none then .ok u
    else if b ≠ none ∧ s.insecure ≠ none ∧ b = s.insecure then .ok u
    else .ok (u.addChange (some (.setInsecure b)) "insecure" (.optBool b))
  | .signatureCheck b =>
    if b = none ∧ s.signatureCheck = none then .ok u
    else if b ≠ none ∧ s.signatureCheck ≠ none ∧ b = s.signatureCheck then .ok u
    else .ok (u.addChange (some (.setSignatureCheck b)) "signature_check" (.optBool b))
  | .age a =>
    if a = none ∧ s.age = none then .ok u
    else if a ≠ none ∧ s.age ≠ none ∧ a = s.age then .ok u
    else
      match a with
      | some x =>
        if x > cfg.maxAge ∧ cfg.maxAge ≠ 0 then .error "invalid age value"
        else .ok (u.addChange (some (.setAge a)) "age" (.optInt a))
      | none => .ok (u.addChange (some (.setAge a)) "age" (.optInt a))
  | .ignorePatterns ps =>
    if ps = s.ignorePatterns then .ok u
    else .ok (u.addChange (some (.setIgnorePatterns ps)) "ignore_patterns"
      (.strList ps))
  | .clientCertPublic d =>
    if d = none ∧ s.clientCertPublic = none then .ok u
    else if d ≠ none ∧ s.clientCertPublic ≠ none ∧ d = s.clientCertPublic then .ok u
    else .ok (u.addChange (some (.setClientCertPublic d)) "client_cert_public"
      (.optBytes d))
  | .clientCertPrivate d =>
    if d = none ∧ s.clientCertPrivate = none then .ok u
    else if d ≠ none ∧ s.clientCertPrivate ≠ none ∧ d = s.clientCertPrivate then .ok u
    else .ok (u.addChange (some (.setClientCertPrivate d)) "client_cert_private"
      (.cipher (.enc d)))
  | .clientCertPassphrase d =>
    if d = none ∧ s.clientCertPassphrase = none then .ok u
    else if d ≠ none ∧ s.clientCertPassphrase ≠ none ∧ d = s.clientCertPassphrase then
      .ok u
    else .ok (u.addChange (some (.setClientCertPassphrase d))
      "client_cert_passphrase" (.cipher (.enc d)))

/-- The sequence of `UpdateX` calls an update callback makes; an error
from any call aborts the callback (the Go callbacks return the error). -/
def runUpdates (cfg : SourcesConfig) (names : List String) (s : Source) :
    List SourceUpdate → Upd Change → Except String (Upd Change)
  | [], u => .ok u
  | r :: rs, u =>
    match applyUpdate cfg names s u r with
    | .error e => .error e
    | .ok u₂ => runUpdates cfg names s rs u₂

/-- The columns of the `sources` row the session writes or the claims
read (spec §6 lists the table's columns; `status` is among them). -/
structure DBRow where
  name : String := ""
  url : String := ""
  active : Bool := false
  status : List String := []
  rate : Option ℚ := none
  slots : Option Int := none
  headers : List String := []
  strictMode : Option Bool := none
  insecure : Option Bool := none
  signatureCheck : Option Bool := none
  age : Option Int := none
  ignorePatterns : List String := []
  clientCertPublic : Option Bytes := none
  clientCertPrivate : Option Cipher := none
  clientCertPassphrase : Option Cipher := none
deriving DecidableEq, Repr

/-- Effect of one `field = value` binding of the UPDATE statement on the
row (the value constructor determines the typed payload; the field name
selects the column). -/
def DBRow.setField (row : DBRow) : String × DBValue → DBRow
  | (f, .str n) => if f = "name" then { row with name := n } else row
  | (f, .optRat r) => if f = "rate" then { row with rate := r } else row
  | (f, .optInt n) =>
    if f = "slots" then { row with slots := n }
    else if f = "age" then { row with age := n }
    else row
  | (f, .bool b) => if f = "active" then { row with active := b } else row
  | (f, .optBool b) =>
    if f = "strict_mode" then { row with strictMode := b }
    else if f = "insecure" then { row with insecure := b }
    else if f = "signature_check" then { row with signatureCheck := b }
    else row
  | (f, .strList l) =>
    if f = "headers" then { row with headers := l }
    else if f = "ignore_patterns" then { row with ignorePatterns := l }
    else row
  | (f, .optBytes d) =>
    if f = "client_cert_public" then { row with clientCertPublic := d }
    else row
  | (f, .cipher c) =>
    if f = "client_cert_private" then { row with clientCertPrivate := some c }
    else if f = "client_cert_passphrase" then
      { row with clientCertPassphrase := some c }
    else row
  | (_, .int _) => row
  | (_, .optCipher _) => row

/-- Effect of one executed UPDATE statement on the row. -/
def DBRow.applyStmt (row : DBRow) (stmt : List (String × DBValue)) : DBRow :=
  stmt.foldl DBRow.setField row

/-- Errors a session returns (`NoSuchEntry` is handled before the
session body and is not part of this embedding). -/
inductive SessionError where
  | updatesFailed (msg : String)
  | updatingDatabaseFailed
deriving DecidableEq, Repr

/-- `SourceUpdateResult`. -/
inductive UpdateResult where
  | unchanged
  | updated
  | deactivated
deriving DecidableEq, Repr

/-- What a session leaves behind: the in-memory entity, the DB row, the
successfully executed UPDATE statements in execution order, the state of
the entity right after `applyChanges` ran (`none` when the closures were
never invoked), and the returned result. -/
structure SessionOutcome where
  source : Source
  row : DBRow
  stmts : List (List (String × DBValue))
  applied : Option Source
  result : Except SessionError UpdateResult
deriving Repr

/-- `Manager.UpdateSource` on a found source `s` whose DB row is `row`.
`reqs` are the `UpdateX` calls the callback makes and `cbErr` is true if
the callback returns an error of its own after those calls; `dbOk`,
`certOk`, `db2Ok` resolve the DB round-trip, `source.updateCertificate`
(not under `src/`; per spec §4.5 it re-derives the mTLS identity and can
fail) and the second, deactivating DB update. -/
def updateSource (cfg : SourcesConfig) (names : List String) (s : Source)
    (row : DBRow) (reqs : List SourceUpdate) (cbErr : Bool)
    (dbOk : Bool) (certOk : Bool) (db2Ok : Bool) : SessionOutcome :=
  match runUpdates cfg names s reqs {} with
  | .error e => ⟨s, row, [], none, .error (.updatesFailed e)⟩
  | .ok u =>
    if cbErr then ⟨s, row, [], none, .error (.updatesFailed "callback error")⟩
    else
      match u.statement with
      | none => ⟨s, row, [], none, .ok .unchanged⟩
      | some stmt =>
        if !dbOk then ⟨s, row, [], none, .error .updatingDatabaseFailed⟩
        else
          let s₁ := applyRec Change.apply u s
          let row₁ := row.applyStmt stmt
          if u.certUpdated then
            if certOk then
              ⟨{ s₁ with status := [] }, row₁, [stmt], some s₁, .ok .updated⟩
            else if s₁.active then
              let s₂ := { s₁ with active := false, status := [deactivatedDueToClientCertIssue] }
              let stmt₂ : List (String × DBValue) := [("active", .bool false)]
              if db2Ok then
                ⟨s₂, row₁.applyStmt stmt₂, [stmt, stmt₂], some s₁, .ok .deactivated⟩
              else
                ⟨s₂, row₁, [stmt], some s₁, .ok .deactivated⟩
            else ⟨s₁, row₁, [stmt], some s₁, .ok .updated⟩
          else ⟨s₁, row₁, [stmt], some s₁, .ok .updated⟩

/-- In-memory `feed` entity fields the `FeedUpdater` touches. -/
structure FeedEnt where
  id : Int := 0
  label : String := ""
  logLevel : Int := 0
deriving DecidableEq, Repr

/-- The apply-closures a `FeedUpdater` records. -/
inductive FeedChange where
  | setLogLevel (l : Int)
  | setLabel (lb : String)
deriving DecidableEq, Repr

/-- Effect of a recorded feed apply-closure. -/
def FeedChange.apply : FeedChange → FeedEnt → FeedEnt
  | .setLogLevel l, f => { f with logLevel := l }
  | .setLabel lb, f => { f with label := lb }

/-- The argument of one `FeedUpdater.UpdateX` call. -/
inductive FeedUpdate where
  | logLevel (l : Int)
  | label (lb : String)
deriving DecidableEq, Repr

/-- One `FeedUpdater.UpdateX` call; `siblings` are the labels of all
feeds of the owning source. -/
def applyFeedUpdate (siblings : List String) (f : FeedEnt)
    (u : Upd FeedChange) : FeedUpdate → Except String (Upd FeedChange)
  | .logLevel l =>
    if f.logLevel = l then .ok u
    else .ok (u.addChange (some (.setLogLevel l)) "log_lvl" (.int l))
  | .label lb =>
    if f.label = lb then .ok u
    else if lb = "" || siblings.contains lb then .error "invalid label"
    else .ok (u.addChange (some (.setLabel lb)) "label" (.str lb))

/-- The sequence of `UpdateX` calls a feed-update callback makes. -/
def runFeedUpdates (siblings : List String) (f : FeedEnt) :
    List FeedUpdate → Upd FeedChange → Except String (Upd FeedChange)
  | [], u => .ok u
  | r :: rs, u =>
    match applyFeedUpdate siblings f u r with
    | .error e => .error e
    | .ok u₂ => runFeedUpdates siblings f rs u₂

/-- The columns of the `feeds` row the session writes. -/
structure FeedRow where
  label : String := ""
  logLevel : Int := 0
deriving DecidableEq, Repr

/-- Effect of one binding of the UPDATE statement on a feed row. -/
def FeedRow.setField (row : FeedRow) : String × DBValue → FeedRow
  | (f, .str lb) => if f = "label" then { row with label := lb } else row
  | (f, .int l) => if f = "log_lvl" then { row with logLevel := l } else row
  | (_, _) => row

/-- Effect of one executed UPDATE statement on a feed row. -/
def FeedRow.applyStmt (row : FeedRow) (stmt : List (String × DBValue)) : FeedRow :=
  stmt.foldl FeedRow.setField row

/-- What a `Manager.UpdateFeed` session leaves behind (the `Bool` result
is `applyChanges`: whether anything was updated). -/
structure FeedSessionOutcome where
  feed : FeedEnt
  row : FeedRow
  stmts : List (List (String × DBValue))
  applied : Option FeedEnt
  result : Except SessionError Bool
deriving Repr

/-- `Manager.UpdateFeed` on a found feed `f` whose DB row is `row`. -/
def updateFeed (siblings : List String) (f : FeedEnt) (row : FeedRow)
    (reqs : List FeedUpdate) (cbErr : Bool) (dbOk : Bool) : FeedSessionOutcome :=
  match runFeedUpdates siblings f reqs {} with
  | .error e => ⟨f, row, [], none, .error (.updatesFailed e)⟩
  | .ok u =>
    if cbErr then ⟨f, row, [], none, .error (.updatesFailed "callback error")⟩
    else
      match u.statement with
      | none => ⟨f, row, [], none, .ok false⟩
      | some stmt =>
        if !dbOk then ⟨f, row, [], none, .error .updatingDatabaseFailed⟩
        else
          let f₁ := applyRec FeedChange.apply u f
          ⟨f₁, row.applyStmt stmt, [stmt], some f₁, .ok true⟩

/-- The callback that sets every source field to its current value: one
`UpdateX` call per updatable field, each passing the field's present
content. -/
def identityUpdates (s : Source) : List SourceUpdate :=
  [.name s.name, .rate s.rate, .slots s.slots, .active s.active,
   .headers s.headers, .strictMode s.strictMode, .insecure s.insecure,
   .signatureCheck s.signatureCheck, .age s.age,
   .ignorePatterns s.ignorePatterns, .clientCertPublic s.clientCertPublic,
   .clientCertPrivate s.clientCertPrivate,
   .clientCertPassphrase s.clientCertPassphrase]

/-- Classification of the records a source-update callback can create:
the `active` record carries the `setActive` closure (which resets
`status`), and every other record's closure leaves `status` untouched. -/
def StatusSafe (rc : Rec Change) : Prop :=
  (rc.field = "active" ∧ ∃ b, rc.change = some (.setActive b)) ∨
  (rc.field ≠ "active" ∧ ∀ s, (applyOne Change.apply s rc).status = s.status)

/-- In-memory `feed` entity as seen by the manager catalogue: the fields
`removeFeed`, `Feed`, `Feeds` and `refreshFeeds` touch.  `nextCheck = none`
models the zero time (`IsZero`); `logs` are the feed-log entries written
by `feed.log` (level, message) — the log sink itself is not under `src/`
and is, per spec §4.3, an append of one entry per call. -/
structure CatFeed where
  id : Int := 0
  label : String := ""
  url : String := ""
  rolie : Bool := false
  logLevel : Int := 0
  invalid : Bool := false
  nextCheck : Option Nat := none
  logs : List (Int × String) := []
deriving DecidableEq, Repr

/-- A catalogued source together with its owned feeds. -/
structure CatSource where
  id : Int := 0
  name : String := ""
  active : Bool := false
  feeds : List CatFeed := []
deriving DecidableEq, Repr

/-- The manager's in-memory catalogue. -/
structure Catalog where
  sources : List CatSource := []
deriving DecidableEq, Repr

/-- `Manager.findSourceByID`: first source with the id. -/
def findSourceByID (c : Catalog) (sourceID : Int) : Option CatSource :=
  c.sources.find? (·.id = sourceID)

/-- `Manager.findFeedByID`: first feed with the id across all sources. -/
def findFeedByID (c : Catalog) (feedID : Int) : Option CatFeed :=
  c.sources.findSome? (fun s => s.feeds.find? (·.id = feedID))

/-- All feed ids of the catalogue (used to state the uniqueness of
DB-generated ids). -/
def feedIDs (c : Catalog) : List Int :=
  c.sources.flatMap (fun s => s.feeds.map (·.id))

/-- What `Manager.Feed` reports (without stats). -/
structure FeedInfo where
  id : Int
  label : String
  url : String
  rolie : Bool
  lvl : Int
deriving DecidableEq, Repr

/-- `FeedInfo` of a feed. -/
def CatFeed.info (f : CatFeed) : FeedInfo :=
  ⟨f.id, f.label, f.url, f.rolie, f.logLevel⟩

/-- `Manager.Feed`: `none` when the feed is unknown or invalid. -/
def feedQuery (c : Catalog) (feedID : Int) : Option FeedInfo :=
  match findFeedByID c feedID with
  | none => none
  | some f => if f.invalid then none else some f.info

/-- `Manager.Feeds`: the infos of a source's feeds, skipping invalid
ones; `NoSuchEntry` when the source is unknown. -/
def feedsQuery (c : Catalog) (sourceID : Int) : Except String (List FeedInfo) :=
  match findSourceByID c sourceID with
  | none => .error "no such source"
  | some s => .ok (((s.feeds.filter (fun f => !f.invalid)).map CatFeed.info))

/-- First stage of `Manager.removeFeed`: the found feed's `invalid` flag
is stored *before* the DB delete is attempted.  The Go code mutates the
single object found by `findFeedByID`; here the update is keyed by the
feed id (feed ids are unique DB identities, so at most one feed
matches). -/
def markInvalid (c : Catalog) (feedID : Int) : Catalog :=
  ⟨c.sources.map fun s =>
    { s with feeds := s.feeds.map fun f =>
        if f.id = feedID then { f with invalid := true } else f }⟩

/-- Second stage of `Manager.removeFeed`, on DB success: the feed is
unlinked from its source (`slices.DeleteFunc` on the owning source's
feed list, keyed by id as above). -/
def dropFeed (c : Catalog) (feedID : Int) : Catalog :=
  ⟨c.sources.map fun s =>
    { s with feeds := s.feeds.filter (fun f => !(f.id = feedID)) }⟩

/-- `Manager.removeFeed`: mark the feed invalid first, then attempt the
DB delete; unlink from the owning source only on DB success. -/
def removeFeed (c : Catalog) (feedID : Int) (dbOk : Bool) :
    Catalog × Except String Unit :=
  match findFeedByID c feedID with
  | none => (c, .error "no such feed")
  | some _ =>
    let c₁ : Catalog := markInvalid c feedID
    if !dbOk then (c₁, .error "deleting feed failed")
    else (dropFeed c₁ feedID, .ok ())

/-- `Manager.removeSource`.  `dbOutcome` resolves the DB round-trip:
`.error` for a failing call, `.ok rows` for a successful DELETE touching
`rows` rows.  On DB success `slices.DeleteFunc` marks the matching
source inactive, drops its feeds and removes it from the catalogue; the
mutated, now-orphaned object is returned as the middle component. -/
def removeSource (c : Catalog) (sourceID : Int) (dbOutcome : Except Unit Nat) :
    Catalog × Option CatSource × Except String Unit :=
  match findSourceByID c sourceID with
  | none => (c, none, .error "no such source")
  | some s =>
    match dbOutcome with
    | .error _ => (c, none, .error "deleting source from db failed")
    | .ok rows =>
      let orphan := { s with active := false, feeds := [] }
      let c₁ : Catalog := ⟨c.sources.filter (fun t => !(t.id = sourceID))⟩
      if rows = 0 then (c₁, some orphan, .error "no such source")
      else (c₁, some orphan, .ok ())

/-- Is the feed due for a refresh (`f.nextCheck.IsZero() ||
!now.Before(f.nextCheck)`)? -/
def feedDue (f : CatFeed) (now : Nat) : Bool :=
  match f.nextCheck with
  | none => true
  | some t => t ≤ now

/-- The error level of `config.ErrorFeedLogLevel`. -/
def errorFeedLogLevel : Int := 4

/-- The loop body of `Manager.refreshFeeds` on one feed: refresh when
due, log one error entry when the refresh fails (`fails f.id` resolves
`feed.refresh`, whose body is not under `src/`), and set `nextCheck`
to `now + FeedRefresh` regardless of the outcome. -/
def refreshOne (cfg : SourcesConfig) (now : Nat) (fails : Int → Bool)
    (f : CatFeed) : CatFeed :=
  if feedDue f now then
    let f₁ :=
      if fails f.id then
        { f with logs := f.logs ++ [(errorFeedLogLevel, "feed refresh failed")] }
      else f
    { f₁ with nextCheck := some (now + cfg.feedRefresh) }
  else f

/-- `Manager.refreshFeeds`: run the refresh body over the feeds of every
active source (`activeFeeds`; the callback always returns true, so no
early exit happens). -/
def refreshFeeds (cfg : SourcesConfig) (now : Nat) (fails : Int → Bool)
    (c : Catalog) : Catalog :=
  ⟨c.sources.map fun s =>
    if s.active then { s with feeds := s.feeds.map (refreshOne cfg now fails) }
    else s⟩

/-- The inputs of `Manager.AddSource` that matter to the claims. -/
structure AddSourceParams where
  name : String := ""
  url : String := ""
  rate : Option ℚ := none
  slots : Option Int := none
  headers : List String := []
  strictMode : Option Bool := none
  insecure : Option Bool := none
  signatureCheck : Option Bool := none
  age : Option Int := none
  ignorePatterns : List String := []
  clientCertPublic : Option Bytes := none
  clientCertPrivate : Option Bytes := none
  clientCertPassphrase : Option Bytes := none
deriving DecidableEq, Repr

/-- The in-memory source `AddSource` builds before encrypting: all cert
fields keep the caller's plaintext bytes. -/
def mkSource (p : AddSourceParams) : Source :=
  { name := p.name, url := p.url, rate := p.rate, slots := p.slots,
    headers := p.headers, strictMode := p.strictMode, insecure := p.insecure,
    signatureCheck := p.signatureCheck, age := p.age,
    ignorePatterns := p.ignorePatterns,
    clientCertPublic := p.clientCertPublic,
    clientCertPrivate := p.clientCertPrivate,
    clientCertPassphrase := p.clientCertPassphrase }

/-- The parameter bindings of `AddSource`'s INSERT: the local
`clientCertPrivate`/`clientCertPassphrase` variables are replaced by
their encryption when non-nil before being bound. -/
def addSourceBindings (p : AddSourceParams) : List (String × DBValue) :=
  [("name", .str p.name), ("url", .str p.url), ("rate", .optRat p.rate),
   ("slots", .optInt p.slots), ("headers", .strList p.headers),
   ("strict_mode", .optBool p.strictMode), ("insecure", .optBool p.insecure),
   ("signature_check", .optBool p.signatureCheck), ("age", .optInt p.age),
   ("ignore_patterns", .strList p.ignorePatterns),
   ("client_cert_public", .optBytes p.clientCertPublic),
   ("client_cert_private",
     .optCipher (p.clientCertPrivate.map (fun b => .enc (some b)))),
   ("client_cert_passphrase",
     .optCipher (p.clientCertPassphrase.map (fun b => .enc (some b))))]

/-- `Manager.AddSource` up to the INSERT: PMD validity and name
uniqueness gate the call; on success the in-memory entity and the INSERT
bindings are produced (a failing INSERT adds nothing to the catalogue
and is reported as an error before `s` is appended). -/
def addSource (pmdValid : Bool) (nameExists : Bool) (dbOk : Bool)
    (p : AddSourceParams) : Except String (Source × List (String × DBValue)) :=
  if !pmdValid then .error "PMD is invalid"
  else if nameExists then .error "source already exists"
  else if !dbOk then .error "adding source to database failed"
  else .ok (mkSource p, addSourceBindings p)

/-- The slots validation and normalisation of `Controller.createSource`
(web layer): reject `*slots > MaxSlotsPerSource` (with no 0-means-
unlimited guard, unlike the rate check directly above it), then
normalise `*slots == 0` to unset. -/
def createSourceSlots (cfg : SourcesConfig) (slots : Option Int) :
    Except String (Option Int) :=
  match slots with
  | some k =>
    if k > cfg.maxSlotsPerSource then .error "slots out of range"
    else if k = 0 then .ok none
    else .ok (some k)
  | none => .ok none

/-- Slot-accounting view of a `source`: its optional `slots` cap, its
`usedSlots` counter, the number of in-flight download jobs whose `finish`
closure references it (each `start` dispatches one job, each dispatched
job posts exactly one completion), and the number of `waiting` locations
over its feeds.  Go `int` counters never go negative (decrements are
`max(0, ·-1)`), so naturals are used; the config values are non-negative
by the configuration contract (spec §6). -/
structure SlotSource where
  id : Int := 0
  slots : Option Nat := none
  usedSlots : Nat := 0
  inflight : Nat := 0
  waiting : Nat := 0
deriving DecidableEq, Repr

/-- Slot-relevant configuration. -/
structure SlotCfg where
  downloadSlots : Nat := 1
  maxSlotsPerSource : Nat := 0
deriving DecidableEq, Repr

/-- Slot-accounting view of the manager: catalogued sources, removed
sources that still have in-flight jobs referencing them (a `downloadJob`
holds the feed and hence the source object), and the global `usedSlots`
counter. -/
structure SlotState where
  cat : List SlotSource := []
  orphans : List SlotSource := []
  used : Nat := 0
deriving DecidableEq, Repr

/-- The per-source admission cap of `startDownloads`:
`min(MaxSlotsPerSource, DownloadSlots)`, further capped by
`*source.slots` when set. -/
def effCap (cfg : SlotCfg) (s : SlotSource) : Nat :=
  match s.slots with
  | none => min cfg.maxSlotsPerSource cfg.downloadSlots
  | some k => min (min cfg.maxSlotsPerSource cfg.downloadSlots) k

/-- Sum of the `usedSlots` counters of a source list. -/
def sumUsed (l : List SlotSource) : Nat := (l.map (·.usedSlots)).sum

/-- Sum of the in-flight job counts of a source list. -/
def sumInflight (l : List SlotSource) : Nat := (l.map (·.inflight)).sum

/-- The atomic mutations of the slot counters, as executed serially by the
command loop:
* `addSource`: `AddSource` appends a source with zero counters;
* `addWaiting`: a feed refresh appends waiting locations;
* `start`: one admission of `startDownloads` — guarded by the global
  budget, the per-source cap and an available waiting location; both
  counters are incremented and a job is dispatched;
* `finishCat`/`finishOrph`: a `downloadJob.finish` closure — decrements
  the job's source counter and the global counter, clamped at zero;
* `remove`: `removeSource` drops the source from the catalogue (feeds
  and hence waiting locations dropped, `active=false`); the object stays
  reachable from any of its in-flight jobs. -/
inductive SlotStep (cfg : SlotCfg) : SlotState → SlotState → Prop where
  | addSource (st : SlotState) (s : SlotSource)
      (h₁ : s.usedSlots = 0) (h₂ : s.inflight = 0) (h₃ : s.waiting = 0) :
      SlotStep cfg st ⟨st.cat ++ [s], st.orphans, st.used⟩
  | addWaiting (st : SlotState) (i : Nat) (h : i < st.cat.length) (n : Nat) :
      SlotStep cfg st
        ⟨st.cat.set i ⟨(st.cat.get ⟨i, h⟩).id, (st.cat.get ⟨i, h⟩).slots,
            (st.cat.get ⟨i, h⟩).usedSlots, (st.cat.get ⟨i, h⟩).inflight,
            (st.cat.get ⟨i, h⟩).waiting + n⟩,
          st.orphans, st.used⟩
  | start (st : SlotState) (i : Nat) (h : i < st.cat.length)
      (hg : st.used < cfg.downloadSlots)
      (hs : (st.cat.get ⟨i, h⟩).usedSlots < effCap cfg (st.cat.get ⟨i, h⟩))
      (hw : 0 < (st.cat.get ⟨i, h⟩).waiting) :
      SlotStep cfg st
        ⟨st.cat.set i ⟨(st.cat.get ⟨i, h⟩).id, (st.cat.get ⟨i, h⟩).slots,
            (st.cat.get ⟨i, h⟩).usedSlots + 1, (st.cat.get ⟨i, h⟩).inflight + 1,
            (st.cat.get ⟨i, h⟩).waiting - 1⟩,
          st.orphans, st.used + 1⟩
  | finishCat (st : SlotState) (i : Nat) (h : i < st.cat.length)
      (hf : 0 < (st.cat.get ⟨i, h⟩).inflight) :
      SlotStep cfg st
        ⟨st.cat.set i ⟨(st.cat.get ⟨i, h⟩).id, (st.cat.get ⟨i, h⟩).slots,
            (st.cat.get ⟨i, h⟩).usedSlots - 1, (st.cat.get ⟨i, h⟩).inflight - 1,
            (st.cat.get ⟨i, h⟩).waiting⟩,
          st.orphans, st.used - 1⟩
  | finishOrph (st : SlotState) (i : Nat) (h : i < st.orphans.length)
      (hf : 0 < (st.orphans.get ⟨i, h⟩).inflight) :
      SlotStep cfg st
        ⟨st.cat,
          st.orphans.set i ⟨(st.orphans.get ⟨i, h⟩).id, (st.orphans.get ⟨i, h⟩).slots,
            (st.orphans.get ⟨i, h⟩).usedSlots - 1, (st.orphans.get ⟨i, h⟩).inflight - 1,
            (st.orphans.get ⟨i, h⟩).waiting⟩,
          st.used - 1⟩
  | remove (st : SlotState) (i : Nat) (h : i < st.cat.length) :
      SlotStep cfg st
        ⟨st.cat.eraseIdx i,
          st.orphans ++ [⟨(st.cat.get ⟨i, h⟩).id, (st.cat.get ⟨i, h⟩).slots,
            (st.cat.get ⟨i, h⟩).usedSlots, (st.cat.get ⟨i, h⟩).inflight, 0⟩],
          st.used⟩

/-- Manager states reachable from the empty catalogue. -/
def SlotReachable (cfg : SlotCfg) (st : SlotState) : Prop :=
  Relation.ReflTransGen (SlotStep cfg) ⟨[], [], 0⟩ st

/-- The inductive invariant of the slot accounting: every source counter
equals its in-flight job count, catalogued sources respect their
effective cap, and the global counter equals the total number of
in-flight jobs and respects the global budget. -/
def SlotInv (cfg : SlotCfg) (st : SlotState) : Prop :=
  (∀ s ∈ st.cat, s.usedSlots = s.inflight ∧ s.usedSlots ≤ effCap cfg s) ∧
  (∀ s ∈ st.orphans, s.usedSlots = s.inflight) ∧
  st.used = sumInflight st.cat + sumInflight st.orphans ∧
  st.used ≤ cfg.downloadSlots

section SlotLemmas

/-- Replacing the `i`-th element changes a mapped sum by swapping the
image of the old element for that of the new one. -/
theorem sum_map_set {α : Type} (f : α → Nat) (l : List α) (i : Nat)
    (h : i < l.length) (v : α) :
    ((l.set i v).map f).sum + f (l.get ⟨i, h⟩) = (l.map f).sum + f v := by
  induction l generalizing i with
  | nil => simp at h
  | cons hd tl ih =>
    cases i with
    | zero => simp [List.set]; omega
    | succ n =>
      have hn : n < tl.length := by simpa using h
      have := ih n hn
      simp only [List.set, List.map_cons, List.sum_cons, List.get] at *
      omega

/-- Erasing the `i`-th element removes exactly its image from a mapped
sum. -/
theorem sum_map_eraseIdx {α : Type} (f : α → Nat) (l : List α) (i : Nat)
    (h : i < l.length) :
    ((l.eraseIdx i).map f).sum + f (l.get ⟨i, h⟩) = (l.map f).sum := by
  induction l generalizing i with
  | nil => simp at h
  | cons hd tl ih =>
    cases i with
    | zero => simp [List.eraseIdx]; omega
    | succ n =>
      have hn : n < tl.length := by simpa using h
      have := ih n hn
      simp only [List.eraseIdx, List.map_cons, List.sum_cons, List.get] at *
      omega

/-- `sum_map_set` specialised to in-flight counts. -/
theorem sumInflight_set (l : List SlotSource) (i : Nat) (h : i < l.length)
    (v : SlotSource) :
    sumInflight (l.set i v) + (l.get ⟨i, h⟩).inflight
      = sumInflight l + v.inflight :=
  sum_map_set (·.inflight) l i h v

/-- `sum_map_eraseIdx` specialised to in-flight counts. -/
theorem sumInflight_eraseIdx (l : List SlotSource) (i : Nat) (h : i < l.length) :
    sumInflight (l.eraseIdx i) + (l.get ⟨i, h⟩).inflight = sumInflight l :=
  sum_map_eraseIdx (·.inflight) l i h

/-- Appending one source adds its in-flight count to the sum. -/
theorem sumInflight_append (l : List SlotSource) (s : SlotSource) :
    sumInflight (l ++ [s]) = sumInflight l + s.inflight := by
  simp [sumInflight]

/-- A member's in-flight count is at most the sum. -/
theorem inflight_le_sumInflight (l : List SlotSource) (a : SlotSource)
    (ha : a ∈ l) : a.inflight ≤ sumInflight l :=
  List.single_le_sum (by simp) _ (List.mem_map_of_mem (·.inflight) ha)

/-- The effective cap as a `min`/`getD` expression (it depends only on
the `slots` field). -/
theorem effCap_eq (cfg : SlotCfg) (s : SlotSource) :
    effCap cfg s = min (min cfg.maxSlotsPerSource cfg.downloadSlots)
      (s.slots.getD (min cfg.maxSlotsPerSource cfg.downloadSlots)) := by
  cases h : s.slots <;> simp [effCap, h]

/-- `SlotStep` preserves the slot-accounting invariant. -/
theorem slotInv_step {cfg : SlotCfg} {st st₂ : SlotState}
    (hinv : SlotInv cfg st) (hstep : SlotStep cfg st st₂) : SlotInv cfg st₂ := by
  obtain ⟨hcat, horph, hsum, hbudget⟩ := hinv
  cases hstep with
  | addSource s h₁ h₂ h₃ =>
    refine ⟨?_, horph, ?_, hbudget⟩
    · intro t ht
      dsimp only at ht
      rcases List.mem_append.1 ht with ht | ht
      · exact hcat t ht
      · have heq : t = s := by simpa using ht
        subst heq
        exact ⟨by omega, by omega⟩
    · have happ := sumInflight_append st.cat s
      dsimp only
      omega
  | addWaiting i h n =>
    have hone := hcat _ (List.get_mem st.cat i h)
    have hswap := sumInflight_set st.cat i h
      ⟨(st.cat.get ⟨i, h⟩).id, (st.cat.get ⟨i, h⟩).slots,
        (st.cat.get ⟨i, h⟩).usedSlots, (st.cat.get ⟨i, h⟩).inflight,
        (st.cat.get ⟨i, h⟩).waiting + n⟩
    dsimp only at hswap
    refine ⟨?_, horph, ?_, hbudget⟩
    · intro t ht
      dsimp only at ht
      rcases List.mem_or_eq_of_mem_set ht with ht | heq
      · exact hcat t ht
      · subst heq
        refine ⟨by dsimp only; omega, ?_⟩
        have h₂ := hone.2
        rw [effCap_eq] at h₂ ⊢
        dsimp only
        omega
    · dsimp only
      omega
  | start i h hg hs hw =>
    have hone := hcat _ (List.get_mem st.cat i h)
    have hswap := sumInflight_set st.cat i h
      ⟨(st.cat.get ⟨i, h⟩).id, (st.cat.get ⟨i, h⟩).slots,
        (st.cat.get ⟨i, h⟩).usedSlots + 1, (st.cat.get ⟨i, h⟩).inflight + 1,
        (st.cat.get ⟨i, h⟩).waiting - 1⟩
    dsimp only at hswap
    refine ⟨?_, horph, ?_, by dsimp only; omega⟩
    · intro t ht
      dsimp only at ht
      rcases List.mem_or_eq_of_mem_set ht with ht | heq
      · exact hcat t ht
      · subst heq
        refine ⟨by dsimp only; omega, ?_⟩
        have h₂ := hone.2
        have h₃ := hs
        rw [effCap_eq] at h₂ h₃ ⊢
        dsimp only
        omega
    · dsimp only
      omega
  | finishCat i h hf =>
    have hone := hcat _ (List.get_mem st.cat i h)
    have hle := inflight_le_sumInflight st.cat _ (List.get_mem st.cat i h)
    have hswap := sumInflight_set st.cat i h
      ⟨(st.cat.get ⟨i, h⟩).id, (st.cat.get ⟨i, h⟩).slots,
        (st.cat.get ⟨i, h⟩).usedSlots - 1, (st.cat.get ⟨i, h⟩).inflight - 1,
        (st.cat.get ⟨i, h⟩).waiting⟩
    dsimp only at hswap
    refine ⟨?_, horph, ?_, by dsimp only; omega⟩
    · intro t ht
      dsimp only at ht
      rcases List.mem_or_eq_of_mem_set ht with ht | heq
      · exact hcat t ht
      · subst heq
        refine ⟨by dsimp only; omega, ?_⟩
        have h₂ := hone.2
        rw [effCap_eq] at h₂ ⊢
        dsimp only
        omega
    · dsimp only
      omega
  | finishOrph i h hf =>
    have hone := horph _ (List.get_mem st.orphans i h)
    have hle := inflight_le_sumInflight st.orphans _ (List.get_mem st.orphans i h)
    have hswap := sumInflight_set st.orphans i h
      ⟨(st.orphans.get ⟨i, h⟩).id, (st.orphans.get ⟨i, h⟩).slots,
        (st.orphans.get ⟨i, h⟩).usedSlots - 1, (st.orphans.get ⟨i, h⟩).inflight - 1,
        (st.orphans.get ⟨i, h⟩).waiting⟩
    dsimp only at hswap
    refine ⟨hcat, ?_, ?_, by dsimp only; omega⟩
    · intro t ht
      dsimp only at ht
      rcases List.mem_or_eq_of_mem_set ht with ht | heq
      · exact horph t ht
      · subst heq
        dsimp only
        omega
    · dsimp only
      omega
  | remove i h =>
    have hone := hcat _ (List.get_mem st.cat i h)
    have herase := sumInflight_eraseIdx st.cat i h
    have happ := sumInflight_append st.orphans
      ⟨(st.cat.get ⟨i, h⟩).id, (st.cat.get ⟨i, h⟩).slots,
        (st.cat.get ⟨i, h⟩).usedSlots, (st.cat.get ⟨i, h⟩).inflight, 0⟩
    dsimp only at happ
    refine ⟨?_, ?_, ?_, hbudget⟩
    · intro t ht
      dsimp only at ht
      exact hcat t (List.mem_of_mem_eraseIdx ht)
    · intro t ht
      dsimp only at ht
      rcases List.mem_append.1 ht with ht | ht
      · exact horph t ht
      · have heq : t = ⟨(st.cat.get ⟨i, h⟩).id, (st.cat.get ⟨i, h⟩).slots,
            (st.cat.get ⟨i, h⟩).usedSlots, (st.cat.get ⟨i, h⟩).inflight, 0⟩ := by
          simpa using ht
        subst heq
        exact hone.1
    · dsimp only
      omega

/-- Every reachable manager state satisfies the slot-accounting
invariant. -/
theorem slotInv_of_reachable {cfg : SlotCfg} {st : SlotState}
    (h : SlotReachable cfg st) : SlotInv cfg st := by
  induction h with
  | refl =>
    refine ⟨?_, ?_, ?_, ?_⟩ <;> simp [SlotInv, sumInflight]
  | tail hsteps hstep ih => exact slotInv_step ih hstep

end SlotLemmas

section UpdaterLemmas

variable (cfg : SourcesConfig) (names : List String) (s : Source) (u : Upd Change)

/-- `UpdateName` with the current name is a no-op. -/
theorem applyUpdate_self_name :
    applyUpdate cfg names s u (.name s.name) = .ok u := by
  simp [applyUpdate]

/-- `UpdateRate` with the current rate is a no-op. -/
theorem applyUpdate_self_rate :
    applyUpdate cfg names s u (.rate s.rate) = .ok u := by
  cases h : s.rate <;> simp [applyUpdate, h]

/-- `UpdateSlots` with the current slots is a no-op. -/
theorem applyUpdate_self_slots :
    applyUpdate cfg names s u (.slots s.slots) = .ok u := by
  cases h : s.slots <;> simp [applyUpdate, h]

/-- `UpdateActive` with the current flag is a no-op. -/
theorem applyUpdate_self_active :
    applyUpdate cfg names s u (.active s.active) = .ok u := by
  simp [applyUpdate]

/-- `UpdateHeaders` with the current headers is a no-op. -/
theorem applyUpdate_self_headers :
    applyUpdate cfg names s u (.headers s.headers) = .ok u := by
  simp [applyUpdate]

/-- `UpdateStrictMode` with the current value is a no-op. -/
theorem applyUpdate_self_strictMode :
    applyUpdate cfg names s u (.strictMode s.strictMode) = .ok u := by
  cases h : s.strictMode <;> simp [applyUpdate, h]

/-- `UpdateInsecure` with the current value is a no-op. -/
theorem applyUpdate_self_insecure :
    applyUpdate cfg names s u (.insecure s.insecure) = .ok u := by
  cases h : s.insecure <;> simp [applyUpdate, h]

/-- `UpdateSignatureCheck` with the current value is a no-op. -/
theorem applyUpdate_self_signatureCheck :
    applyUpdate cfg names s u (.signatureCheck s.signatureCheck) = .ok u := by
  cases h : s.signatureCheck <;> simp [applyUpdate, h]

/-- `UpdateAge` with the current value is a no-op. -/
theorem applyUpdate_self_age :
    applyUpdate cfg names s u (.age s.age) = .ok u := by
  cases h : s.age <;> simp [applyUpdate, h]

/-- `UpdateIgnorePatterns` with the current patterns is a no-op. -/
theorem applyUpdate_self_ignorePatterns :
    applyUpdate cfg names s u (.ignorePatterns s.ignorePatterns) = .ok u := by
  simp [applyUpdate]

/-- `UpdateClientCertPublic` with the current bytes is a no-op. -/
theorem applyUpdate_self_clientCertPublic :
    applyUpdate cfg names s u (.clientCertPublic s.clientCertPublic) = .ok u := by
  cases h : s.clientCertPublic <;> simp [applyUpdate, h]

/-- `UpdateClientCertPrivate` with the current bytes is a no-op. -/
theorem applyUpdate_self_clientCertPrivate :
    applyUpdate cfg names s u (.clientCertPrivate s.clientCertPrivate) = .ok u := by
  cases h : s.clientCertPrivate <;> simp [applyUpdate, h]

/-- `UpdateClientCertPassphrase` with the current bytes is a no-op. -/
theorem applyUpdate_self_clientCertPassphrase :
    applyUpdate cfg names s u (.clientCertPassphrase s.clientCertPassphrase)
      = .ok u := by
  cases h : s.clientCertPassphrase <;> simp [applyUpdate, h]

/-- A callback that sets every field to its current value records
nothing. -/
theorem runUpdates_identity :
    runUpdates cfg names s (identityUpdates s) u = .ok u := by
  simp [identityUpdates, runUpdates,
    applyUpdate_self_name, applyUpdate_self_rate, applyUpdate_self_slots,
    applyUpdate_self_active, applyUpdate_self_headers,
    applyUpdate_self_strictMode, applyUpdate_self_insecure,
    applyUpdate_self_signatureCheck, applyUpdate_self_age,
    applyUpdate_self_ignorePatterns, applyUpdate_self_clientCertPublic,
    applyUpdate_self_clientCertPrivate, applyUpdate_self_clientCertPassphrase]

end UpdaterLemmas

/-- C5: an `UpdateSource` session whose callback sets every field to its
current value records no change, executes no SQL, leaves the in-memory
source and the DB row unchanged and returns *unchanged*; conversely any
session returning *unchanged* left both the row and the entity exactly
as they were and executed no statement. -/
theorem c5_identity_update_unchanged :
    (∀ cfg names s row dbOk certOk db2Ok,
      updateSource cfg names s row (identityUpdates s) false dbOk certOk db2Ok
        = ⟨s, row, [], none, .ok .unchanged⟩) ∧
    (∀ cfg names s row reqs cbErr dbOk certOk db2Ok,
      (updateSource cfg names s row reqs cbErr dbOk certOk db2Ok).result
          = .ok .unchanged →
      updateSource cfg names s row reqs cbErr dbOk certOk db2Ok
        = ⟨s, row, [], none, .ok .unchanged⟩) := by
  constructor
  · intro cfg names s row dbOk certOk db2Ok
    simp [updateSource, runUpdates_identity, Upd.statement]
  · intro cfg names s row reqs cbErr dbOk certOk db2Ok h
    cases hr : runUpdates cfg names s reqs {} with
    | error e => simp [updateSource, hr] at h
    | ok u =>
      cases cbErr with
      | true => simp [updateSource, hr] at h
      | false =>
        cases hst : u.statement with
        | none => simp [updateSource, hr, hst]
        | some stmt =>
          cases dbOk with
          | false => simp [updateSource, hr, hst] at h
          | true =>
            simp only [updateSource, hr, hst, Bool.not_true, Bool.false_eq_true,
              if_false] at h
            split at h <;>
              first
              | simp at h
              | (split at h <;>
                  first
                  | simp at h
                  | (split at h <;>
                      first
                      | simp at h
                      | (split at h <;> simp at h)))

/-- Witness for C5 at concrete inputs. -/
theorem c5_identity_update_unchanged_witness :
    updateSource {} [] {} {} (identityUpdates {}) false true true true
        = ⟨{}, {}, [], none, .ok .unchanged⟩ ∧
    updateSource {} [] { name := "x" } {} [] false true true true
        = ⟨{ name := "x" }, {}, [], none, .ok .unchanged⟩ :=
  ⟨c5_identity_update_unchanged.1 {} [] {} {} true true true,
   c5_identity_update_unchanged.2 {} [] { name := "x" } {} [] false true true
     true rfl⟩

section StatusLemmas

/-- `addChange` preserves status-safety of the recorded list when the
new record is status-safe. -/
theorem statusSafe_addChange (u : Upd Change) (ch : Option Change)
    (fld : String) (v : DBValue)
    (hsafe : ∀ rc ∈ u.recorded, StatusSafe rc)
    (hnew : StatusSafe ⟨fld, v, ch⟩) :
    ∀ rc ∈ (u.addChange ch fld v).recorded, StatusSafe rc := by
  intro rc hrc
  unfold Upd.addChange at hrc
  split at hrc
  · exact hsafe rc hrc
  · rcases List.mem_append.1 hrc with hrc | hrc
    · exact hsafe rc hrc
    · have : rc = ⟨fld, v, ch⟩ := by simpa using hrc
      subst this
      exact hnew

/-- Every record an `UpdateX` call appends is status-safe. -/
theorem statusSafe_applyUpdate {cfg : SourcesConfig} {names : List String}
    {s : Source} {u u₁ : Upd Change} {r : SourceUpdate}
    (h : applyUpdate cfg names s u r = .ok u₁)
    (hsafe : ∀ rc ∈ u.recorded, StatusSafe rc) :
    ∀ rc ∈ u₁.recorded, StatusSafe rc := by
  cases r <;>
    (simp only [applyUpdate] at h
     repeat' split at h) <;>
    first
    | (cases h <;> exact hsafe)
    | (cases h <;>
       exact statusSafe_addChange _ _ _ _ hsafe (Or.inl ⟨rfl, ⟨_, rfl⟩⟩))
    | (cases h <;>
       exact statusSafe_addChange _ _ _ _ hsafe
        (Or.inr ⟨by simp, fun s₂ => rfl⟩))

/-- Every record a whole callback leaves in the updater is status-safe. -/
theorem statusSafe_runUpdates {cfg : SourcesConfig} {names : List String}
    {s : Source} {u u₂ : Upd Change} {reqs : List SourceUpdate}
    (h : runUpdates cfg names s reqs u = .ok u₂)
    (hsafe : ∀ rc ∈ u.recorded, StatusSafe rc) :
    ∀ rc ∈ u₂.recorded, StatusSafe rc := by
  induction reqs generalizing u with
  | nil =>
    simp only [runUpdates] at h
    cases h
    exact hsafe
  | cons r rs ih =>
    simp only [runUpdates] at h
    cases happ : applyUpdate cfg names s u r with
    | error e => rw [happ] at h; simp at h
    | ok u₁ =>
      rw [happ] at h
      exact ih h (statusSafe_applyUpdate happ hsafe)

/-- Applying only status-preserving records leaves the status alone. -/
theorem status_foldl_preserved (l : List (Rec Change)) (s : Source)
    (hsafe : ∀ rc ∈ l, ∀ s₂, (applyOne Change.apply s₂ rc).status = s₂.status) :
    (l.foldl (applyOne Change.apply) s).status = s.status := by
  induction l generalizing s with
  | nil => rfl
  | cons rc rs ih =>
    rw [List.foldl_cons]
    rw [ih _ (fun rc₂ h₂ => hsafe rc₂ (List.mem_cons_of_mem _ h₂))]
    exact hsafe rc (List.mem_cons_self _ _) s

/-- If a status-safe record list contains the `active` field, applying
it in order empties the status. -/
theorem status_foldl_active (l : List (Rec Change)) (s : Source)
    (hsafe : ∀ rc ∈ l, StatusSafe rc)
    (hactive : "active" ∈ l.map (·.field)) :
    (l.foldl (applyOne Change.apply) s).status = [] := by
  induction l generalizing s with
  | nil => simp at hactive
  | cons rc rs ih =>
    rw [List.foldl_cons]
    by_cases hmem : "active" ∈ rs.map (·.field)
    · exact ih _ (fun rc₂ h₂ => hsafe rc₂ (List.mem_cons_of_mem _ h₂)) hmem
    · have hfield : rc.field = "active" := by
        simp only [List.map_cons, List.mem_cons] at hactive
        rcases hactive with h₂ | h₂
        · exact h₂.symm
        · exact absurd h₂ hmem
      rcases hsafe rc (List.mem_cons_self _ _) with ⟨_, b, hch⟩ | ⟨hne, _⟩
      · have h₁ : (applyOne Change.apply s rc).status = [] := by
          simp [applyOne, hch, Change.apply]
        have h₂ : ∀ rc₂ ∈ rs, ∀ s₂,
            (applyOne Change.apply s₂ rc₂).status = s₂.status := by
          intro rc₂ hm s₂
          rcases hsafe rc₂ (List.mem_cons_of_mem _ hm) with ⟨hf, _⟩ | ⟨_, hp⟩
          · exact absurd (hf ▸ List.mem_map_of_mem (·.field) hm) hmem
          · exact hp s₂
        rw [status_foldl_preserved rs _ h₂, h₁]
      · exact absurd hfield hne

end StatusLemmas

/-- C10: whenever a source-update callback records a change of the
`active` flag (either direction), applying the recorded closures leaves
the status list empty; in particular reactivating a source that was
deactivated with the client-cert status clears that status without any
certificate field being touched and returns *updated*. -/
theorem c10_active_change_resets_status :
    (∀ cfg names s reqs u,
      runUpdates cfg names s reqs {} = .ok u →
      "active" ∈ u.fields →
      (applyRec Change.apply u s).status = []) ∧
    (∀ cfg names s row certOk db2Ok,
      s.active = false →
      s.status = [deactivatedDueToClientCertIssue] →
      updateSource cfg names s row [.active true] false true certOk db2Ok
        = ⟨{ s with active := true, status := [] },
            row.applyStmt [("active", .bool true)],
            [[("active", .bool true)]],
            some { s with active := true, status := [] }, .ok .updated⟩) := by
  constructor
  · intro cfg names s reqs u hrun hactive
    have hsafe := statusSafe_runUpdates hrun (by intro rc hrc; simp at hrc)
    exact status_foldl_active u.recorded s hsafe hactive
  · intro cfg names s row certOk db2Ok hactive hstatus
    simp [updateSource, runUpdates, applyUpdate, hactive, Upd.addChange,
      Upd.fields, Upd.statement, Upd.certUpdated, Change.certUpdated,
      applyRec, applyOne, Change.apply]

/-- Witness for C10 at concrete inputs. -/
theorem c10_active_change_resets_status_witness :
    (applyRec Change.apply
      ⟨[⟨"active", .bool true, some (.setActive true)⟩]⟩
      { active := false, status := [deactivatedDueToClientCertIssue] }).status
        = [] ∧
    updateSource {} []
        { active := false, status := [deactivatedDueToClientCertIssue] }
        {} [.active true] false true true true
      = ⟨{ active := true, status := [] },
          DBRow.applyStmt {} [("active", .bool true)],
          [[("active", .bool true)]],
          some { active := true, status := [] }, .ok .updated⟩ := by
  constructor
  · exact c10_active_change_resets_status.1 {} []
      { active := false, status := [deactivatedDueToClientCertIssue] }
      [.active true] ⟨[⟨"active", .bool true, some (.setActive true)⟩]⟩
      rfl (by simp [Upd.fields])
  · exact c10_active_change_resets_status.2 {} []
      { active := false, status := [deactivatedDueToClientCertIssue] }
      {} true true rfl rfl

/-- C3 (amended): a session that updates the private client certificate
while the source is active, when re-derivation fails, deactivates the
in-memory source with the client-cert status, persists the new key
material encrypted plus a second one-field `active=false` update, and
returns *deactivated*; the `status` column of the DB row is left
unchanged (only the in-memory status is set). -/
theorem c3_cert_failure_deactivates (cfg : SourcesConfig)
    (names : List String) (s : Source) (row : DBRow) (d : Bytes)
    (db2Ok : Bool) (hactive : s.active = true)
    (hdiff : s.clientCertPrivate ≠ some d) :
    updateSource cfg names s row [.clientCertPrivate (some d)] false true
        false db2Ok
      = ⟨{ s with active := false, status := [deactivatedDueToClientCertIssue], clientCertPrivate := some d },
          if db2Ok then
            (row.applyStmt
              [("client_cert_private", .cipher (.enc (some d)))]).applyStmt
              [("active", .bool false)]
          else row.applyStmt
            [("client_cert_private", .cipher (.enc (some d)))],
          if db2Ok then
            [[("client_cert_private", .cipher (.enc (some d)))],
              [("active", .bool false)]]
          else [[("client_cert_private", .cipher (.enc (some d)))]],
          some { s with clientCertPrivate := some d }, .ok .deactivated⟩ ∧
    (updateSource cfg names s row [.clientCertPrivate (some d)] false true
        false db2Ok).row.clientCertPrivate = some (.enc (some d)) ∧
    (db2Ok = true →
      (updateSource cfg names s row [.clientCertPrivate (some d)] false true
          false db2Ok).row.active = false) ∧
    (updateSource cfg names s row [.clientCertPrivate (some d)] false true
        false db2Ok).row.status = row.status := by
  have hdiff₂ : some d ≠ s.clientCertPrivate := fun hc => hdiff hc.symm
  have happ : applyUpdate cfg names s {} (.clientCertPrivate (some d))
      = .ok ⟨[⟨"client_cert_private", .cipher (.enc (some d)),
          some (.setClientCertPrivate (some d))⟩]⟩ := by
    simp only [applyUpdate]
    rw [if_neg (by simp), if_neg (by simp [hdiff₂])]
    rfl
  have hrun : runUpdates cfg names s [.clientCertPrivate (some d)] {}
      = .ok ⟨[⟨"client_cert_private", .cipher (.enc (some d)),
          some (.setClientCertPrivate (some d))⟩]⟩ := by
    simp only [runUpdates, happ]
  have hcore : updateSource cfg names s row [.clientCertPrivate (some d)]
      false true false db2Ok
      = ⟨{ s with active := false, status := [deactivatedDueToClientCertIssue], clientCertPrivate := some d },
          if db2Ok then
            (row.applyStmt
              [("client_cert_private", .cipher (.enc (some d)))]).applyStmt
              [("active", .bool false)]
          else row.applyStmt
            [("client_cert_private", .cipher (.enc (some d)))],
          if db2Ok then
            [[("client_cert_private", .cipher (.enc (some d)))],
              [("active", .bool false)]]
          else [[("client_cert_private", .cipher (.enc (some d)))]],
          some { s with clientCertPrivate := some d }, .ok .deactivated⟩ := by
    cases db2Ok <;>
      simp only [updateSource, hrun, Upd.statement, Upd.certUpdated,
        Change.certUpdated, applyRec, applyOne, Change.apply, List.foldl,
        List.any, List.isEmpty, Bool.not_true, Bool.not_false, hactive,
        Bool.or_false, Bool.false_eq_true, if_false, if_true, ite_true,
        ite_false] <;>
      simp [hactive]
  refine ⟨hcore, ?_, ?_, ?_⟩ <;> rw [hcore] <;> cases db2Ok <;>
    simp [DBRow.applyStmt, DBRow.setField]

/-- Witness for C3 (amended) at concrete inputs. -/
theorem c3_cert_failure_deactivates_witness :
    updateSource {} [] { active := true } {} [.clientCertPrivate (some [2])]
        false true false true
      = ⟨{ active := false, status := [deactivatedDueToClientCertIssue], clientCertPrivate := some [2] },
          if true then
            (DBRow.applyStmt {}
              [("client_cert_private", .cipher (.enc (some [2])))]).applyStmt
              [("active", .bool false)]
          else DBRow.applyStmt {}
            [("client_cert_private", .cipher (.enc (some [2])))],
          if true then
            [[("client_cert_private", .cipher (.enc (some [2])))],
              [("active", .bool false)]]
          else [[("client_cert_private", .cipher (.enc (some [2])))]],
          some { clientCertPrivate := some [2], active := true },
          .ok .deactivated⟩ ∧
    (updateSource {} [] { active := true } {} [.clientCertPrivate (some [2])]
        false true false true).row.clientCertPrivate
      = some (.enc (some [2])) ∧
    (true = true →
      (updateSource {} [] { active := true } {}
          [.clientCertPrivate (some [2])] false true false true).row.active
        = false) ∧
    (updateSource {} [] { active := true } {} [.clientCertPrivate (some [2])]
        false true false true).row.status = ({} : DBRow).status :=
  c3_cert_failure_deactivates {} [] { active := true } {} [2] true rfl
    (by decide)

/-- C3 counterexample: at a concrete run satisfying the claim's
premises, the claim's asserted DB-row status
`[deactivated_due_to_client_cert_issue]` does not hold — the row's
status column is untouched — while the rest of the run matches. -/
theorem c3_status_not_persisted :
    (updateSource {} [] { active := true } {}
        [.clientCertPrivate (some [1])] false true false true).result
      = .ok .deactivated ∧
    (updateSource {} [] { active := true } {}
        [.clientCertPrivate (some [1])] false true false true).source.status
      = [deactivatedDueToClientCertIssue] ∧
    (updateSource {} [] { active := true } {}
        [.clientCertPrivate (some [1])] false true false true).row.active
      = false ∧
    (updateSource {} [] { active := true } {}
        [.clientCertPrivate (some [1])] false true false
        true).row.clientCertPrivate = some (.enc (some [1])) ∧
    (updateSource {} [] { active := true } {}
        [.clientCertPrivate (some [1])] false true false true).row.status
      ≠ [deactivatedDueToClientCertIssue] := by
  refine ⟨rfl, rfl, rfl, rfl, ?_⟩
  decide

section SessionLemmas

variable (cfg : SourcesConfig) (names : List String) (s : Source)
  (row : DBRow) (reqs : List SourceUpdate)
  (cbErr dbOk certOk db2Ok : Bool)

/-- A failing callback aborts a source session before any DB write. -/
theorem updateSource_callback_error (e : String)
    (h : runUpdates cfg names s reqs {} = .error e) :
    updateSource cfg names s row reqs cbErr dbOk certOk db2Ok
      = ⟨s, row, [], none, .error (.updatesFailed e)⟩ := by
  simp [updateSource, h]

/-- A callback returning its own error aborts the session likewise. -/
theorem updateSource_callback_flag (hcb : cbErr = true) :
    (updateSource cfg names s row reqs cbErr dbOk certOk db2Ok).source = s ∧
    (updateSource cfg names s row reqs cbErr dbOk certOk db2Ok).row = row ∧
    (updateSource cfg names s row reqs cbErr dbOk certOk db2Ok).stmts = [] ∧
    (updateSource cfg names s row reqs cbErr dbOk certOk db2Ok).applied
      = none ∧
    ∃ e, (updateSource cfg names s row reqs cbErr dbOk certOk db2Ok).result
      = .error (.updatesFailed e) := by
  cases hr : runUpdates cfg names s reqs {} with
  | error e =>
    rw [updateSource_callback_error cfg names s row reqs cbErr dbOk certOk
      db2Ok e hr]
    exact ⟨rfl, rfl, rfl, rfl, e, rfl⟩
  | ok u =>
    subst hcb
    simp [updateSource, hr]

/-- A failing UPDATE aborts the session: nothing was executed and the
in-memory entity and row are untouched. -/
theorem updateSource_db_fail (u : Upd Change)
    (h : runUpdates cfg names s reqs {} = .ok u) (hcb : cbErr = false)
    (hdb : dbOk = false) (hne : u.recorded ≠ []) :
    updateSource cfg names s row reqs cbErr dbOk certOk db2Ok
      = ⟨s, row, [], none, .error .updatingDatabaseFailed⟩ := by
  subst hcb hdb
  have hst : u.statement = some (u.recorded.map fun r => (r.field, r.value)) := by
    simp [Upd.statement, hne]
  simp [updateSource, h, hst]

/-- On DB success the closures run, in first-recording order, exactly
when something was recorded. -/
theorem updateSource_applied (u : Upd Change)
    (h : runUpdates cfg names s reqs {} = .ok u) (hcb : cbErr = false)
    (hdb : dbOk = true) :
    (updateSource cfg names s row reqs cbErr dbOk certOk db2Ok).applied
      = if u.recorded.isEmpty then none
        else some (applyRec Change.apply u s) := by
  subst hcb hdb
  by_cases hne : u.recorded.isEmpty
  · have hst : u.statement = none := by simp [Upd.statement, hne]
    simp [updateSource, h, hst, hne]
  · have hst : u.statement
        = some (u.recorded.map fun r => (r.field, r.value)) := by
      simp [Upd.statement, hne]
    simp only [updateSource, h, hst, hne, Bool.not_true, Bool.false_eq_true,
      if_false, ite_false]
    split <;> (try split) <;> (try split) <;> (try split) <;> rfl

end SessionLemmas

section FeedSessionLemmas

variable (siblings : List String) (f : FeedEnt) (row : FeedRow)
  (reqs : List FeedUpdate) (cbErr dbOk : Bool)

/-- A failing callback aborts a feed session before any DB write. -/
theorem updateFeed_callback_error (e : String)
    (h : runFeedUpdates siblings f reqs {} = .error e) :
    updateFeed siblings f row reqs cbErr dbOk
      = ⟨f, row, [], none, .error (.updatesFailed e)⟩ := by
  simp [updateFeed, h]

/-- A callback returning its own error aborts the feed session. -/
theorem updateFeed_callback_flag (hcb : cbErr = true) :
    (updateFeed siblings f row reqs cbErr dbOk).feed = f ∧
    (updateFeed siblings f row reqs cbErr dbOk).row = row ∧
    (updateFeed siblings f row reqs cbErr dbOk).stmts = [] ∧
    (updateFeed siblings f row reqs cbErr dbOk).applied = none ∧
    ∃ e, (updateFeed siblings f row reqs cbErr dbOk).result
      = .error (.updatesFailed e) := by
  cases hr : runFeedUpdates siblings f reqs {} with
  | error e =>
    rw [updateFeed_callback_error siblings f row reqs cbErr dbOk e hr]
    exact ⟨rfl, rfl, rfl, rfl, e, rfl⟩
  | ok u =>
    subst hcb
    simp [updateFeed, hr]

/-- A failing UPDATE aborts the feed session unmutated. -/
theorem updateFeed_db_fail (u : Upd FeedChange)
    (h : runFeedUpdates siblings f reqs {} = .ok u) (hcb : cbErr = false)
    (hdb : dbOk = false) (hne : u.recorded ≠ []) :
    updateFeed siblings f row reqs cbErr dbOk
      = ⟨f, row, [], none, .error .updatingDatabaseFailed⟩ := by
  subst hcb hdb
  have hst : u.statement = some (u.recorded.map fun r => (r.field, r.value)) := by
    simp [Upd.statement, hne]
  simp [updateFeed, h, hst]

/-- On DB success the feed closures run in first-recording order exactly
when something was recorded. -/
theorem updateFeed_applied (u : Upd FeedChange)
    (h : runFeedUpdates siblings f reqs {} = .ok u) (hcb : cbErr = false)
    (hdb : dbOk = true) :
    (updateFeed siblings f row reqs cbErr dbOk).applied
      = if u.recorded.isEmpty then none
        else some (applyRec FeedChange.apply u f) := by
  subst hcb hdb
  by_cases hne : u.recorded.isEmpty
  · have hst : u.statement = none := by simp [Upd.statement, hne]
    simp [updateFeed, h, hst, hne]
  · have hst : u.statement
        = some (u.recorded.map fun r => (r.field, r.value)) := by
      simp [Upd.statement, hne]
    simp [updateFeed, h, hst, hne]

end FeedSessionLemmas

/-- C1: in every `UpdateSource` or `UpdateFeed` session on an existing
entity, a callback error or a failed UPDATE aborts the session with that
error, executing no statement and mutating neither entity nor row; the
recorded apply-closures run only once the DB update succeeded, in the
order in which their fields were first recorded (`applyRec` folds the
`recorded` list left-to-right, and `addChange` appends only
first-recorded fields). -/
theorem c1_session_aborts_and_db_first :
    (∀ cfg names s row reqs cbErr dbOk certOk db2Ok,
      (∀ e, runUpdates cfg names s reqs {} = .error e →
        updateSource cfg names s row reqs cbErr dbOk certOk db2Ok
          = ⟨s, row, [], none, .error (.updatesFailed e)⟩) ∧
      (cbErr = true →
        (updateSource cfg names s row reqs cbErr dbOk certOk db2Ok).source
            = s ∧
        (updateSource cfg names s row reqs cbErr dbOk certOk db2Ok).row
            = row ∧
        (updateSource cfg names s row reqs cbErr dbOk certOk db2Ok).stmts
            = [] ∧
        (updateSource cfg names s row reqs cbErr dbOk certOk
              db2Ok).applied = none ∧
        ∃ e, (updateSource cfg names s row reqs cbErr dbOk certOk
            db2Ok).result = .error (.updatesFailed e)) ∧
      (∀ u, runUpdates cfg names s reqs {} = .ok u → cbErr = false →
        dbOk = false → u.recorded ≠ [] →
        updateSource cfg names s row reqs cbErr dbOk certOk db2Ok
          = ⟨s, row, [], none, .error .updatingDatabaseFailed⟩) ∧
      (∀ u, runUpdates cfg names s reqs {} = .ok u → cbErr = false →
        dbOk = true →
        (updateSource cfg names s row reqs cbErr dbOk certOk
            db2Ok).applied
          = if u.recorded.isEmpty then none
            else some (applyRec Change.apply u s))) ∧
    (∀ siblings f frow freqs cbErr dbOk,
      (∀ e, runFeedUpdates siblings f freqs {} = .error e →
        updateFeed siblings f frow freqs cbErr dbOk
          = ⟨f, frow, [], none, .error (.updatesFailed e)⟩) ∧
      (cbErr = true →
        (updateFeed siblings f frow freqs cbErr dbOk).feed = f ∧
        (updateFeed siblings f frow freqs cbErr dbOk).row = frow ∧
        (updateFeed siblings f frow freqs cbErr dbOk).stmts = [] ∧
        (updateFeed siblings f frow freqs cbErr dbOk).applied = none ∧
        ∃ e, (updateFeed siblings f frow freqs cbErr dbOk).result
          = .error (.updatesFailed e)) ∧
      (∀ u, runFeedUpdates siblings f freqs {} = .ok u → cbErr = false →
        dbOk = false → u.recorded ≠ [] →
        updateFeed siblings f frow freqs cbErr dbOk
          = ⟨f, frow, [], none, .error .updatingDatabaseFailed⟩) ∧
      (∀ u, runFeedUpdates siblings f freqs {} = .ok u → cbErr = false →
        dbOk = true →
        (updateFeed siblings f frow freqs cbErr dbOk).applied
          = if u.recorded.isEmpty then none
            else some (applyRec FeedChange.apply u f))) := by
  constructor
  · intro cfg names s row reqs cbErr dbOk certOk db2Ok
    exact ⟨fun e he => updateSource_callback_error cfg names s row reqs cbErr
        dbOk certOk db2Ok e he,
      fun hcb => updateSource_callback_flag cfg names s row reqs cbErr dbOk
        certOk db2Ok hcb,
      fun u hu hcb hdb hne => updateSource_db_fail cfg names s row reqs cbErr
        dbOk certOk db2Ok u hu hcb hdb hne,
      fun u hu hcb hdb => updateSource_applied cfg names s row reqs cbErr
        dbOk certOk db2Ok u hu hcb hdb⟩
  · intro siblings f frow freqs cbErr dbOk
    exact ⟨fun e he => updateFeed_callback_error siblings f frow freqs cbErr
        dbOk e he,
      fun hcb => updateFeed_callback_flag siblings f frow freqs cbErr dbOk hcb,
      fun u hu hcb hdb hne => updateFeed_db_fail siblings f frow freqs cbErr
        dbOk u hu hcb hdb hne,
      fun u hu hcb hdb => updateFeed_applied siblings f frow freqs cbErr dbOk
        u hu hcb hdb⟩

/-- Witness for C1 at concrete inputs. -/
theorem c1_session_aborts_and_db_first_witness :
    updateSource {} ["other"] { name := "a" } {} [.name "other"] false true
        true true
      = ⟨{ name := "a" }, {}, [], none,
          .error (.updatesFailed "invalid name")⟩ ∧
    updateSource {} [] { name := "a" } {} [.name "b"] false false true true
      = ⟨{ name := "a" }, {}, [], none, .error .updatingDatabaseFailed⟩ ∧
    (updateFeed [] { label := "l" } {} [.label "m"] false true).applied
      = if (⟨[⟨"label", .str "m", some (.setLabel "m")⟩]⟩ :
            Upd FeedChange).recorded.isEmpty then none
        else some (applyRec FeedChange.apply
          ⟨[⟨"label", .str "m", some (.setLabel "m")⟩]⟩ { label := "l" }) := by
  refine ⟨?_, ?_, ?_⟩
  · exact (c1_session_aborts_and_db_first.1 {} ["other"] { name := "a" } {}
      [.name "other"] false true true true).1 "invalid name" rfl
  · exact (c1_session_aborts_and_db_first.1 {} [] { name := "a" } {}
      [.name "b"] false false true true).2.2.1
      ⟨[⟨"name", .str "b", some (.setName "b")⟩]⟩ rfl rfl rfl (by simp)
  · exact (c1_session_aborts_and_db_first.2 [] { label := "l" } {}
      [.label "m"] false true).2.2.2
      ⟨[⟨"label", .str "m", some (.setLabel "m")⟩]⟩ rfl rfl rfl

/-- C4: `AddSource` and the updater bind the crypto-box-encrypted form
of the private key and the passphrase — never the plaintext — while the
in-memory entity keeps the plaintext: the only binding `AddSource`
produces for those columns is the encrypted one, a recorded
`client_cert_private`/`client_cert_passphrase` change carries
`Cipher.enc` as its DB value, and its apply-closure stores the plaintext
on the source. -/
theorem c4_secrets_encrypted_at_binding :
    (∀ pmdValid nameExists dbOk p s binds,
      addSource pmdValid nameExists dbOk p = .ok (s, binds) →
        ("client_cert_private", DBValue.optCipher
            (p.clientCertPrivate.map (fun b => .enc (some b)))) ∈ binds ∧
        ("client_cert_passphrase", DBValue.optCipher
            (p.clientCertPassphrase.map (fun b => .enc (some b)))) ∈ binds ∧
        s.clientCertPrivate = p.clientCertPrivate ∧
        s.clientCertPassphrase = p.clientCertPassphrase ∧
        (∀ v, ("client_cert_private", v) ∈ binds →
          v = DBValue.optCipher
            (p.clientCertPrivate.map (fun b => .enc (some b)))) ∧
        (∀ v, ("client_cert_passphrase", v) ∈ binds →
          v = DBValue.optCipher
            (p.clientCertPassphrase.map (fun b => .enc (some b))))) ∧
    (∀ cfg names s u d u₂,
      applyUpdate cfg names s u (.clientCertPrivate d) = .ok u₂ →
      u₂ = u ∨ u₂.recorded = u.recorded
        ++ [⟨"client_cert_private", .cipher (.enc d),
            some (.setClientCertPrivate d)⟩]) ∧
    (∀ cfg names s u d u₂,
      applyUpdate cfg names s u (.clientCertPassphrase d) = .ok u₂ →
      u₂ = u ∨ u₂.recorded = u.recorded
        ++ [⟨"client_cert_passphrase", .cipher (.enc d),
            some (.setClientCertPassphrase d)⟩]) ∧
    (∀ d s, Change.apply (.setClientCertPrivate d) s
        = { s with clientCertPrivate := d }) ∧
    (∀ d s, Change.apply (.setClientCertPassphrase d) s
        = { s with clientCertPassphrase := d }) := by
  refine ⟨?_, ?_, ?_, fun d s => rfl, fun d s => rfl⟩
  · intro pmdValid nameExists dbOk p s binds h
    simp only [addSource] at h
    split at h
    · simp at h
    · split at h
      · simp at h
      · split at h
        · simp at h
        · cases h
          refine ⟨by simp [addSourceBindings], by simp [addSourceBindings],
            rfl, rfl, ?_, ?_⟩ <;>
            (intro v hv
             simp only [addSourceBindings, List.mem_cons, List.mem_singleton,
               Prod.mk.injEq] at hv
             rcases hv with h | h | h | h | h | h | h | h | h | h | h | h | h <;>
               simp_all)
  · intro cfg names s u d u₂ h
    simp only [applyUpdate] at h
    split at h
    · cases h; exact Or.inl rfl
    · split at h
      · cases h; exact Or.inl rfl
      · cases h
        unfold Upd.addChange
        split
        · exact Or.inl rfl
        · exact Or.inr rfl
  · intro cfg names s u d u₂ h
    simp only [applyUpdate] at h
    split at h
    · cases h; exact Or.inl rfl
    · split at h
      · cases h; exact Or.inl rfl
      · cases h
        unfold Upd.addChange
        split
        · exact Or.inl rfl
        · exact Or.inr rfl

/-- Witness for C4 at concrete inputs. -/
theorem c4_secrets_encrypted_at_binding_witness :
    ("client_cert_private", DBValue.optCipher
        (Option.map (fun b => Cipher.enc (some b)) (some [1]))) ∈
      addSourceBindings
        { clientCertPrivate := some [1], clientCertPassphrase := some [2] } ∧
    ("client_cert_passphrase", DBValue.optCipher
        (Option.map (fun b => Cipher.enc (some b)) (some [2]))) ∈
      addSourceBindings
        { clientCertPrivate := some [1], clientCertPassphrase := some [2] } ∧
    (mkSource { clientCertPrivate := some [1], clientCertPassphrase := some [2] }).clientCertPrivate = some [1] ∧
    ((⟨[⟨"client_cert_private", .cipher (.enc (some [3])),
          some (.setClientCertPrivate (some [3]))⟩]⟩ : Upd Change)
        = (⟨[]⟩ : Upd Change) ∨
      (⟨[⟨"client_cert_private", .cipher (.enc (some [3])),
          some (.setClientCertPrivate (some [3]))⟩]⟩ : Upd Change).recorded
        = (⟨[]⟩ : Upd Change).recorded
          ++ [⟨"client_cert_private", .cipher (.enc (some [3])),
              some (.setClientCertPrivate (some [3]))⟩]) :=
  ⟨(c4_secrets_encrypted_at_binding.1 true false true
      { clientCertPrivate := some [1], clientCertPassphrase := some [2] }
      _ _ rfl).1,
   (c4_secrets_encrypted_at_binding.1 true false true
      { clientCertPrivate := some [1], clientCertPassphrase := some [2] }
      _ _ rfl).2.1,
   (c4_secrets_encrypted_at_binding.1 true false true
      { clientCertPrivate := some [1], clientCertPassphrase := some [2] }
      _ _ rfl).2.2.1,
   c4_secrets_encrypted_at_binding.2.1 {} [] {} ⟨[]⟩ (some [3]) _ rfl⟩

section CatalogLemmas

/-- A feed found by id carries that id. -/
theorem findFeedByID_id {c : Catalog} {fid : Int} {f : CatFeed}
    (h : findFeedByID c fid = some f) : f.id = fid := by
  obtain ⟨s, _, hfind⟩ := List.exists_of_findSome?_eq_some h
  simpa using List.find?_some hfind

/-- A feed found by id belongs to some catalogued source. -/
theorem findFeedByID_mem {c : Catalog} {fid : Int} {f : CatFeed}
    (h : findFeedByID c fid = some f) :
    ∃ s ∈ c.sources, f ∈ s.feeds := by
  obtain ⟨s, hs, hfind⟩ := List.exists_of_findSome?_eq_some h
  exact ⟨s, hs, List.mem_of_find?_eq_some hfind⟩

/-- In the marked catalogue, every feed carrying the removed id is
invalid. -/
theorem markInvalid_invalid {c : Catalog} {fid : Int} :
    ∀ s ∈ (markInvalid c fid).sources, ∀ g ∈ s.feeds,
      g.id = fid → g.invalid = true := by
  intro s₁ hs₁ g hg hid
  simp only [markInvalid, List.mem_map] at hs₁
  obtain ⟨s₀, hs₀, rfl⟩ := hs₁
  simp only [List.mem_map] at hg
  obtain ⟨f₀, hf₀, rfl⟩ := hg
  by_cases hc : f₀.id = fid
  · simp [hc]
  · rw [if_neg hc] at hid
    exact absurd hid hc

/-- `Manager.Feed` does not expose the marked feed. -/
theorem feedQuery_markInvalid {c : Catalog} {fid : Int} :
    feedQuery (markInvalid c fid) fid = none := by
  cases hf : findFeedByID (markInvalid c fid) fid with
  | none => simp [feedQuery, hf]
  | some g =>
    obtain ⟨s₁, hs₁, hg⟩ := findFeedByID_mem hf
    have hinv := markInvalid_invalid s₁ hs₁ g hg (findFeedByID_id hf)
    simp [feedQuery, hf, hinv]

/-- `Manager.Feeds` does not expose the marked feed. -/
theorem feedsQuery_markInvalid {c : Catalog} {fid : Int} :
    ∀ sid infos, feedsQuery (markInvalid c fid) sid = .ok infos →
      ∀ i ∈ infos, i.id ≠ fid := by
  intro sid infos h i hi
  unfold feedsQuery at h
  cases hs : findSourceByID (markInvalid c fid) sid with
  | none => rw [hs] at h; cases h
  | some s₁ =>
    rw [hs] at h
    cases h
    simp only [List.mem_map] at hi
    obtain ⟨g, hg, rfl⟩ := hi
    have hmem := List.mem_filter.1 hg
    intro hid
    have hs₁ : s₁ ∈ (markInvalid c fid).sources :=
      List.mem_of_find?_eq_some hs
    have hinv := markInvalid_invalid s₁ hs₁ g hmem.1 (by simpa using hid)
    simp [hinv] at hmem

/-- `findSome?` is `none` when the function is `none` on every element. -/
theorem findSome?_eq_none_of {α β : Type} (l : List α) (f : α → Option β)
    (h : ∀ a ∈ l, f a = none) : l.findSome? f = none := by
  induction l with
  | nil => rfl
  | cons x xs ih =>
    simp [List.findSome?_cons, h x (by simp),
      ih (fun a ha => h a (by simp [ha]))]

/-- After the unlink stage, no feed carries the removed id. -/
theorem findFeedByID_dropFeed {c : Catalog} {fid : Int} :
    findFeedByID (dropFeed c fid) fid = none := by
  apply findSome?_eq_none_of
  intro s₁ hs₁
  simp only [dropFeed, List.mem_map] at hs₁
  obtain ⟨s₀, _, rfl⟩ := hs₁
  apply List.find?_eq_none.2
  intro f hf
  have := (List.mem_filter.1 hf).2
  simpa using this

/-- `Manager.Feeds` does not expose an unlinked feed. -/
theorem feedsQuery_dropFeed {c : Catalog} {fid : Int} :
    ∀ sid infos, feedsQuery (dropFeed c fid) sid = .ok infos →
      ∀ i ∈ infos, i.id ≠ fid := by
  intro sid infos h i hi
  unfold feedsQuery at h
  cases hs : findSourceByID (dropFeed c fid) sid with
  | none => rw [hs] at h; cases h
  | some s₁ =>
    rw [hs] at h
    cases h
    simp only [List.mem_map] at hi
    obtain ⟨g, hg, rfl⟩ := hi
    have hmem := (List.mem_filter.1 hg).1
    have hs₁ : s₁ ∈ (dropFeed c fid).sources := List.mem_of_find?_eq_some hs
    simp only [dropFeed, List.mem_map] at hs₁
    obtain ⟨s₀, _, rfl⟩ := hs₁
    have := (List.mem_filter.1 hmem).2
    simpa using this

/-- When no feed carries the id, the queries cannot expose it. -/
theorem feedsQuery_absent {c : Catalog} {fid : Int}
    (habs : findFeedByID c fid = none) :
    ∀ sid infos, feedsQuery c sid = .ok infos → ∀ i ∈ infos, i.id ≠ fid := by
  intro sid infos h i hi
  unfold feedsQuery at h
  cases hs : findSourceByID c sid with
  | none => rw [hs] at h; cases h
  | some s₁ =>
    rw [hs] at h
    cases h
    simp only [List.mem_map] at hi
    obtain ⟨g, hg, rfl⟩ := hi
    have hgmem := (List.mem_filter.1 hg).1
    have hs₁ : s₁ ∈ c.sources := List.mem_of_find?_eq_some hs
    intro hid
    have hnone : s₁.feeds.find? (fun f => f.id = fid) = none := by
      unfold findFeedByID at habs
      by_contra hne
      cases hfind : s₁.feeds.find? (fun f => f.id = fid) with
      | none => exact hne hfind
      | some g₂ =>
        have : c.sources.findSome?
            (fun s => s.feeds.find? (fun f => f.id = fid)) ≠ none := by
          intro hcontra
          have := List.findSome?_eq_none.1 hcontra s₁ hs₁
          rw [hfind] at this
          cases this
        exact this habs
    have := List.find?_eq_none.1 hnone g hgmem
    exact this (by simpa [CatFeed.info] using hid)

end CatalogLemmas

/-- C6: after `RemoveFeed(id)` — whether the DB delete succeeds or fails
— `Feed(id)` reports nothing and `Feeds(sourceID)` no longer lists the
feed, because the invalid flag is stored before the delete is attempted
and both queries skip invalid feeds.  Feed ids are unique DB-generated
identities (`Nodup`). -/
theorem c6_removeFeed_hides_feed (c : Catalog) (fid : Int) (dbOk : Bool)
    (hnd : (feedIDs c).Nodup) :
    feedQuery (removeFeed c fid dbOk).1 fid = none ∧
    (∀ sid infos, feedsQuery (removeFeed c fid dbOk).1 sid = .ok infos →
      ∀ i ∈ infos, i.id ≠ fid) := by
  cases hf : findFeedByID c fid with
  | none =>
    have h₁ : (removeFeed c fid dbOk).1 = c := by
      simp [removeFeed, hf]
    rw [h₁]
    exact ⟨by simp [feedQuery, hf], feedsQuery_absent hf⟩
  | some f =>
    cases dbOk with
    | false =>
      have h₁ : (removeFeed c fid false).1 = markInvalid c fid := by
        simp [removeFeed, hf]
      rw [h₁]
      exact ⟨feedQuery_markInvalid, feedsQuery_markInvalid⟩
    | true =>
      have h₁ : (removeFeed c fid true).1
          = dropFeed (markInvalid c fid) fid := by
        simp [removeFeed, hf]
      rw [h₁]
      exact ⟨by simp [feedQuery, findFeedByID_dropFeed], feedsQuery_dropFeed⟩

/-- Witness for C6 at a concrete catalogue. -/
theorem c6_removeFeed_hides_feed_witness :
    feedQuery (removeFeed ⟨[⟨1, "s", true, [⟨7, "f", "u", true, 0, false,
        none, []⟩]⟩]⟩ 7 false).1 7 = none :=
  (c6_removeFeed_hides_feed
    ⟨[⟨1, "s", true, [⟨7, "f", "u", true, 0, false, none, []⟩]⟩]⟩ 7 false
    (by decide)).1

/-- C9: removing an existing source — on a DB call error the catalogue
is untouched and the error is surfaced; on a successful DELETE that
touches zero rows the in-memory source is still dropped (marked inactive
with its feeds cleared, surviving only as the orphaned object) and
`NoSuchEntry` is returned. -/
theorem c9_removeSource_zero_rows (c : Catalog) (sid : Int) (s : CatSource)
    (hfind : findSourceByID c sid = some s) :
    removeSource c sid (.error ())
      = (c, none, .error "deleting source from db failed") ∧
    findSourceByID (removeSource c sid (.ok 0)).1 sid = none ∧
    (removeSource c sid (.ok 0)).2.1
      = some { s with active := false, feeds := [] } ∧
    (removeSource c sid (.ok 0)).2.2 = .error "no such source" := by
  refine ⟨by simp [removeSource, hfind], ?_, by simp [removeSource, hfind],
    by simp [removeSource, hfind]⟩
  have h₁ : (removeSource c sid (.ok 0)).1
      = ⟨c.sources.filter (fun t => !(t.id = sid))⟩ := by
    simp [removeSource, hfind]
  rw [h₁]
  unfold findSourceByID
  apply List.find?_eq_none.2
  intro t ht
  have := (List.mem_filter.1 ht).2
  simpa using this

/-- Witness for C9 at a concrete catalogue. -/
theorem c9_removeSource_zero_rows_witness :
    removeSource ⟨[⟨1, "a", true, []⟩]⟩ 1 (.error ())
      = (⟨[⟨1, "a", true, []⟩]⟩, none,
          .error "deleting source from db failed") ∧
    findSourceByID (removeSource ⟨[⟨1, "a", true, []⟩]⟩ 1 (.ok 0)).1 1
      = none ∧
    (removeSource ⟨[⟨1, "a", true, []⟩]⟩ 1 (.ok 0)).2.1
      = some { id := 1, name := "a", active := false, feeds := [] } ∧
    (removeSource ⟨[⟨1, "a", true, []⟩]⟩ 1 (.ok 0)).2.2
      = .error "no such source" :=
  c9_removeSource_zero_rows ⟨[⟨1, "a", true, []⟩]⟩ 1 ⟨1, "a", true, []⟩ rfl

/-- C7: in a maintenance pass a feed of an active source is refreshed
exactly when its `next_check` is zero or not in the future; a failed
refresh appends exactly one feed-log entry at error level; and
`next_check` becomes `now + FeedRefresh` whether or not the refresh
succeeded; feeds of inactive sources and feeds that are not due are
untouched. -/
theorem c7_refresh_schedule (cfg : SourcesConfig) (now : Nat)
    (fails : Int → Bool) (c : Catalog) :
    (∀ s ∈ c.sources, s.active = false →
      s ∈ (refreshFeeds cfg now fails c).sources) ∧
    (∀ s ∈ c.sources, s.active = true →
      { s with feeds := s.feeds.map (refreshOne cfg now fails) }
        ∈ (refreshFeeds cfg now fails c).sources) ∧
    (∀ f, feedDue f now = false → refreshOne cfg now fails f = f) ∧
    (∀ f, feedDue f now = true →
      (refreshOne cfg now fails f).nextCheck
          = some (now + cfg.feedRefresh) ∧
      (fails f.id = true → (refreshOne cfg now fails f).logs
          = f.logs ++ [(errorFeedLogLevel, "feed refresh failed")]) ∧
      (fails f.id = false → (refreshOne cfg now fails f).logs = f.logs) ∧
      (refreshOne cfg now fails f).id = f.id ∧
      (refreshOne cfg now fails f).invalid = f.invalid) := by
  refine ⟨?_, ?_, ?_, ?_⟩
  · intro s hs hact
    unfold refreshFeeds
    exact List.mem_map.2 ⟨s, hs, by simp [hact]⟩
  · intro s hs hact
    unfold refreshFeeds
    exact List.mem_map.2 ⟨s, hs, by simp [hact]⟩
  · intro f hdue
    simp [refreshOne, hdue]
  · intro f hdue
    cases hfail : fails f.id <;>
      simp [refreshOne, hdue, hfail]

/-- Witness for C7 at concrete inputs. -/
theorem c7_refresh_schedule_witness :
    ((⟨1, "s", true, List.map
        (refreshOne { feedRefresh := 5 } 10 (fun _ => true))
        [⟨2, "b", "u", false, 0, false, none, []⟩]⟩ : CatSource)
      ∈ (refreshFeeds { feedRefresh := 5 } 10 (fun _ => true)
          ⟨[⟨1, "s", true,
            [⟨2, "b", "u", false, 0, false, none, []⟩]⟩]⟩).sources) ∧
    (refreshOne { feedRefresh := 5 } 10 (fun _ => true)
        ⟨2, "b", "u", false, 0, false, none, []⟩).nextCheck = some 15 ∧
    (refreshOne { feedRefresh := 5 } 10 (fun _ => true)
        ⟨2, "b", "u", false, 0, false, none, []⟩).logs
      = [] ++ [(errorFeedLogLevel, "feed refresh failed")] ∧
    refreshOne { feedRefresh := 5 } 10 (fun _ => false)
        ⟨2, "b", "u", false, 0, false, some 20, []⟩
      = ⟨2, "b", "u", false, 0, false, some 20, []⟩ := by
  refine ⟨?_, ?_, ?_, ?_⟩
  · exact (c7_refresh_schedule { feedRefresh := 5 } 10 (fun _ => true)
      ⟨[⟨1, "s", true, [⟨2, "b", "u", false, 0, false, none, []⟩]⟩]⟩).2.1
      ⟨1, "s", true, [⟨2, "b", "u", false, 0, false, none, []⟩]⟩
      (by simp) rfl
  · exact ((c7_refresh_schedule { feedRefresh := 5 } 10 (fun _ => true)
      ⟨[]⟩).2.2.2 ⟨2, "b", "u", false, 0, false, none, []⟩ rfl).1
  · exact ((c7_refresh_schedule { feedRefresh := 5 } 10 (fun _ => true)
      ⟨[]⟩).2.2.2 ⟨2, "b", "u", false, 0, false, none, []⟩ rfl).2.1 rfl
  · exact (c7_refresh_schedule { feedRefresh := 5 } 10 (fun _ => false)
      ⟨[]⟩).2.2.1 ⟨2, "b", "u", false, 0, false, some 20, []⟩ rfl

/-- When every counter equals its in-flight count, the two sums agree. -/
theorem sumUsed_eq_sumInflight (l : List SlotSource)
    (h : ∀ s ∈ l, s.usedSlots = s.inflight) : sumUsed l = sumInflight l := by
  induction l with
  | nil => rfl
  | cons x xs ih =>
    simp only [sumUsed, sumInflight, List.map_cons, List.sum_cons] at *
    rw [h x (List.mem_cons_self _ _),
      ih (fun s hs => h s (List.mem_cons_of_mem _ hs))]

/-- C2 (amended): in every reachable manager state each catalogued
source's `used_slots` is at most `min(MaxSlotsPerSource, DownloadSlots,
source.slots)` and the global counter never exceeds `DownloadSlots`;
the sum of `used_slots` over catalogued sources is at most the global
counter, with equality whenever no removed source still has an in-flight
download.  (`RemoveSource` of a source with in-flight downloads makes
the global counter exceed the catalogued sum until those downloads
finish.) -/
theorem c2_slot_accounting (cfg : SlotCfg) (st : SlotState)
    (h : SlotReachable cfg st) :
    (∀ s ∈ st.cat, s.usedSlots ≤ effCap cfg s) ∧
    st.used ≤ cfg.downloadSlots ∧
    sumUsed st.cat ≤ st.used ∧
    (sumInflight st.orphans = 0 → sumUsed st.cat = st.used) := by
  obtain ⟨hcat, horph, hsum, hb⟩ := slotInv_of_reachable h
  have hequ : sumUsed st.cat = sumInflight st.cat :=
    sumUsed_eq_sumInflight _ (fun s hs => (hcat s hs).1)
  exact ⟨fun s hs => (hcat s hs).2, hb, by omega, fun h₀ => by omega⟩

/-- Witness for C2 (amended) at a concrete reachable state. -/
theorem c2_slot_accounting_witness :
    (⟨[⟨1, none, 0, 0, 0⟩], [], 0⟩ : SlotState).used
        ≤ (⟨2, 1⟩ : SlotCfg).downloadSlots ∧
    sumUsed (⟨[⟨1, none, 0, 0, 0⟩], [], 0⟩ : SlotState).cat
        ≤ (⟨[⟨1, none, 0, 0, 0⟩], [], 0⟩ : SlotState).used ∧
    sumUsed (⟨[⟨1, none, 0, 0, 0⟩], [], 0⟩ : SlotState).cat
        = (⟨[⟨1, none, 0, 0, 0⟩], [], 0⟩ : SlotState).used :=
  have hreach : SlotReachable ⟨2, 1⟩ ⟨[⟨1, none, 0, 0, 0⟩], [], 0⟩ :=
    Relation.ReflTransGen.tail Relation.ReflTransGen.refl
      (SlotStep.addSource _ ⟨1, none, 0, 0, 0⟩ rfl rfl rfl)
  ⟨(c2_slot_accounting ⟨2, 1⟩ _ hreach).2.1,
   (c2_slot_accounting ⟨2, 1⟩ _ hreach).2.2.1,
   (c2_slot_accounting ⟨2, 1⟩ _ hreach).2.2.2 rfl⟩

/-- C2 counterexample: a reachable state — one download started, then
its source removed — where the sum of `used_slots` over catalogued
sources (0) differs from the global counter (1): `removeSource` drops
the source without giving back its slots. -/
theorem c2_sum_equality_fails :
    SlotReachable ⟨1, 1⟩ ⟨[], [⟨1, none, 1, 1, 0⟩], 1⟩ ∧
    sumUsed (⟨[], [⟨1, none, 1, 1, 0⟩], 1⟩ : SlotState).cat
      ≠ (⟨[], [⟨1, none, 1, 1, 0⟩], 1⟩ : SlotState).used := by
  refine ⟨?_, by decide⟩
  have h₁ : SlotStep ⟨1, 1⟩ ⟨[], [], 0⟩ ⟨[⟨1, none, 0, 0, 0⟩], [], 0⟩ :=
    SlotStep.addSource _ ⟨1, none, 0, 0, 0⟩ rfl rfl rfl
  have h₂ : SlotStep ⟨1, 1⟩ ⟨[⟨1, none, 0, 0, 0⟩], [], 0⟩
      ⟨[⟨1, none, 0, 0, 1⟩], [], 0⟩ :=
    SlotStep.addWaiting _ 0 (by decide) 1
  have h₃ : SlotStep ⟨1, 1⟩ ⟨[⟨1, none, 0, 0, 1⟩], [], 0⟩
      ⟨[⟨1, none, 1, 1, 0⟩], [], 1⟩ :=
    SlotStep.start _ 0 (by decide) (by decide) (by decide) (by decide)
  have h₄ : SlotStep ⟨1, 1⟩ ⟨[⟨1, none, 1, 1, 0⟩], [], 1⟩
      ⟨[], [⟨1, none, 1, 1, 0⟩], 1⟩ :=
    SlotStep.remove _ 0 (by decide)
  exact Relation.ReflTransGen.tail (Relation.ReflTransGen.tail
    (Relation.ReflTransGen.tail (Relation.ReflTransGen.tail
      Relation.ReflTransGen.refl h₁) h₂) h₃) h₄

/-- C8: the `createSource` endpoint rejects any requested `slots` value
above `MaxSlotsPerSource` even when that limit is 0 (which the
configuration contract defines as unlimited, and which the updater's
`UpdateSlots` honours with its `MaxSlotsPerSource != 0` guard):
with `MaxSlotsPerSource = 0`, `slots = 1` is rejected by `createSource`
but accepted by `UpdateSlots`; `slots = 0` still normalises to unset,
and `UpdateSlots` rejects values below 1. -/
theorem c8_createSource_slots_zero_limit :
    createSourceSlots { maxSlotsPerSource := 0 } (some 1)
      = .error "slots out of range" ∧
    createSourceSlots { maxSlotsPerSource := 0 } (some 0) = .ok none ∧
    createSourceSlots { maxSlotsPerSource := 5 } (some 0) = .ok none ∧
    createSourceSlots { maxSlotsPerSource := 5 } (some 6)
      = .error "slots out of range" ∧
    applyUpdate { maxSlotsPerSource := 0 } [] {} {} (.slots (some 1))
      = .ok ⟨[⟨"slots", .optInt (some 1), some (.setSlots (some 1))⟩]⟩ ∧
    applyUpdate { maxSlotsPerSource := 5 } [] {} {} (.slots (some 6))
      = .error "slot value ot ouf range" ∧
    applyUpdate { maxSlotsPerSource := 0 } [] {} {} (.slots (some 0))
      = .error "slot value ot ouf range" := by
  refine ⟨rfl, rfl, rfl, rfl, rfl, rfl, rfl⟩

end ISDuBA
